import Mathlib

/-!
Verification development for the form-editing core of the
archive-witness-db-tools repository (`src/tools/src/editing/` together with
the model types and helpers it uses from `src/db/src/`).

Rust strings are embedded as `List Char` (`Str`); each Rust string primitive
used by the code (`trim`, `trim_start_matches`, `split`, `contains`,
`to_lowercase`) is given an executable Lean counterpart with the same
semantics.  Fallible Rust functions returning `Result` are embedded as
`Except`; a Rust panic (`unwrap` on an `Err`, or a `panic!` inside a
`From<&str>` conversion) is represented by the distinguished
`ToolError.panicked` constructor, so that "returns a typed error" and
"aborts abnormally" are distinguishable outcomes in the model.
-/

abbrev Str := List Char

def str (s : String) : Str := s.data

namespace Rust

/-- Whitespace test used by Rust's `char::is_whitespace`, restricted to the
ASCII whitespace characters, which are the only ones this code base ever
produces or strips. -/
def isWhitespaceChar (c : Char) : Bool :=
  c == ' ' || c == '\t' || c == '\n' || c == '\x0b' || c == '\x0c' || c == '\r'

/-- Embedding of `str::trim_start` (drop leading whitespace). -/
def trimStart (s : Str) : Str := s.dropWhile isWhitespaceChar

/-- Embedding of `str::trim_end` (drop trailing whitespace). -/
def trimEnd (s : Str) : Str := (s.reverse.dropWhile isWhitespaceChar).reverse

/-- Embedding of `str::trim`. -/
def trim (s : Str) : Str := trimEnd (trimStart s)

/-- First index at which `pat` occurs in the remaining string, accumulating
the index travelled so far. -/
def findSubAux (pat : Str) : Str → Nat → Option Nat
  | [], i => if pat.isEmpty then some i else none
  | c :: rest, i =>
    if pat.isPrefixOf (c :: rest) then some i else findSubAux pat rest (i + 1)

/-- Index of the first occurrence of `pat` in `s`, if any. -/
def findSub (s pat : Str) : Option Nat := findSubAux pat s 0

/-- Embedding of `str::contains` with a string pattern. -/
def containsSub (s pat : Str) : Bool := (findSub s pat).isSome

/-- Fuel-driven worker for `splitOnStr`; every call site passes a non-empty
pattern, and the fuel `s.length + 1` is enough because each found occurrence
consumes at least one character. -/
def splitOnStrFuel (pat : Str) : Nat → Str → List Str
  | 0, s => [s]
  | fuel + 1, s =>
    match findSub s pat with
    | none => [s]
    | some i => s.take i :: splitOnStrFuel pat fuel (s.drop (i + pat.length))

/-- Embedding of `str::split` with a (non-empty) string pattern, collected
into a vector: the pieces between consecutive non-overlapping occurrences,
scanned left to right. -/
def splitOnStr (s pat : Str) : List Str := splitOnStrFuel pat (s.length + 1) s

/-- Fuel-driven worker for `trimStartMatches`. -/
def trimStartMatchesFuel (pat : Str) : Nat → Str → Str
  | 0, s => s
  | fuel + 1, s =>
    if !pat.isEmpty && pat.isPrefixOf s then
      trimStartMatchesFuel pat fuel (s.drop pat.length)
    else s

/-- Embedding of `str::trim_start_matches` with a string pattern: repeatedly
removes the pattern while it is a prefix. -/
def trimStartMatches (s pat : Str) : Str :=
  trimStartMatchesFuel pat (s.length + 1) s

/-- Embedding of `str::trim_start_matches` with a `char` pattern. -/
def trimStartMatchesChar (c : Char) (s : Str) : Str := s.dropWhile (· == c)

/-- Embedding of `str::split` with a `char` pattern. -/
def splitChar : Str → Char → List Str
  | [], _ => [[]]
  | c :: rest, sepc =>
    if c == sepc then [] :: splitChar rest sepc
    else
      match splitChar rest sepc with
      | [] => [[c]]
      | h :: t => (c :: h) :: t

/-- Embedding of `str::to_lowercase` (the code only lowercases ASCII). -/
def toLowercase (s : Str) : Str := s.map Char.toLower

end Rust

/-- Embedding of `FormError` from `src/tools/src/editing/forms.rs`. -/
inductive FormError
  | choiceFieldNotFound (name : Str)
  | fieldNotFound (name : Str)
  | incorrectType (name : Str)
  | invalidValue (name : Str)
  | malformedField (name : Str)
  | malformedForm
  | requiredFieldEmpty (name : Str)
deriving DecidableEq

/-! Field kinds, from `src/tools/src/editing/fields.rs`.  Each Rust struct
becomes a structure with the same fields; its `new`, `from_input_str`,
`value` and `as_string` methods are embedded one-to-one. -/

structure TextField where
  name : Str
  value : Str
deriving DecidableEq

def TextField.new (name value : Str) : TextField := ⟨name, value⟩

def TextField.from_input_str (name input : Str) : Except FormError TextField :=
  if !Rust.containsSub input name then .error (.malformedField name)
  else
    let val := Rust.trim (Rust.trimStartMatches input (name ++ str ": "))
    if val = [] then .error (.requiredFieldEmpty name)
    else .ok (TextField.new name val)

def TextField.as_string (f : TextField) : Str :=
  f.name ++ str ":" ++ (if f.value.isEmpty then [] else str " " ++ f.value)

structure MultilineTextField where
  name : Str
  value : Str
deriving DecidableEq

def MultilineTextField.new (name value : Str) : MultilineTextField := ⟨name, value⟩

def MultilineTextField.from_input_str (name input : Str) :
    Except FormError MultilineTextField :=
  if !Rust.containsSub input name then .error (.malformedField name)
  else
    let val := Rust.trim (Rust.trimStartMatchesChar ':'
      (Rust.trimStartMatches input (name ++ str ":")))
    if val = [] then .error (.requiredFieldEmpty name)
    else .ok (MultilineTextField.new name val)

def MultilineTextField.as_string (f : MultilineTextField) : Str :=
  f.name ++ str ":\n" ++ f.value

structure OptionalMultilineTextField where
  name : Str
  value : Str
deriving DecidableEq

def OptionalMultilineTextField.new (name value : Str) : OptionalMultilineTextField :=
  ⟨name, value⟩

def OptionalMultilineTextField.from_input_str (name input : Str) :
    Except FormError OptionalMultilineTextField :=
  if !Rust.containsSub input name then .error (.malformedField name)
  else
    let val := Rust.trim (Rust.trimStartMatches input (name ++ str ":"))
    .ok (OptionalMultilineTextField.new name val)

def OptionalMultilineTextField.as_string (f : OptionalMultilineTextField) : Str :=
  f.name ++ str ":\n" ++ f.value

/-- The placeholder marker line rendered by `OptionalChoiceListField::as_string`. -/
def chooseOneOrDeleteAllMarker : Str := str "## CHOOSE ONE OR DELETE ALL ##"

structure OptionalChoiceListField where
  name : Str
  values : List Str
  choices : List Str
deriving DecidableEq

def OptionalChoiceListField.new (name : Str) (values : List Str) :
    OptionalChoiceListField :=
  ⟨name, values, []⟩

def OptionalChoiceListField.value (f : OptionalChoiceListField) : Str :=
  List.intercalate (str ";") f.values

def OptionalChoiceListField.as_string (f : OptionalChoiceListField) : Str :=
  let val := f.value
  Rust.trim (f.name ++ str ":" ++
    (if val.isEmpty then
      str "\n" ++ chooseOneOrDeleteAllMarker ++ str "\n" ++
        (f.choices.map (fun c => c ++ str "\n")).flatten
    else str " " ++ val))

def OptionalChoiceListField.add_choices (f : OptionalChoiceListField)
    (choices : List Str) : OptionalChoiceListField :=
  { f with choices := f.choices ++ choices }

def OptionalChoiceListField.from_input_str (name input : Str) :
    Except FormError OptionalChoiceListField :=
  if !Rust.containsSub input name then .error (.malformedField name)
  else
    let stripped := Rust.trim (Rust.trimStartMatches input (name ++ str ": "))
    let values :=
      if stripped = [] then []
      else (Rust.splitChar stripped ';').map Rust.trim
    .ok (OptionalChoiceListField.new name values)

structure ListField where
  name : Str
  values : List Str
deriving DecidableEq

def ListField.new (name : Str) (values : List Str) : ListField := ⟨name, values⟩

def ListField.from_input_str (name input : Str) : Except FormError ListField :=
  if !Rust.containsSub input name then .error (.malformedField name)
  else
    let stripped := Rust.trim (Rust.trimStartMatches input (name ++ str ": "))
    let values :=
      if stripped = [] then []
      else (Rust.splitChar stripped ';').map Rust.trim
    if values = [] then .error (.requiredFieldEmpty name)
    else .ok (ListField.new name values)

def ListField.value (f : ListField) : Str := List.intercalate (str "; ") f.values

def ListField.as_string (f : ListField) : Str :=
  f.name ++ str ":" ++ (if f.value.isEmpty then [] else str " " ++ f.value)

structure OptionalListField where
  name : Str
  values : List Str
deriving DecidableEq

def OptionalListField.new (name : Str) (values : List Str) : OptionalListField :=
  ⟨name, values⟩

def OptionalListField.from_input_str (name input : Str) :
    Except FormError OptionalListField :=
  if !Rust.containsSub input name then .error (.malformedField name)
  else
    let stripped := Rust.trim (Rust.trimStartMatches input (name ++ str ":"))
    let values :=
      if stripped = [] then []
      else (Rust.splitChar stripped ';').map Rust.trim
    .ok (OptionalListField.new name values)

def OptionalListField.value (f : OptionalListField) : Str :=
  List.intercalate (str "; ") f.values

def OptionalListField.as_string (f : OptionalListField) : Str :=
  f.name ++ str ":" ++ (if f.value.isEmpty then [] else str " " ++ f.value)

structure MultilineListField where
  name : Str
  values : List Str
deriving DecidableEq

def MultilineListField.new (name : Str) (values : List Str) : MultilineListField :=
  ⟨name, values⟩

def MultilineListField.from_input_str (name input : Str) :
    Except FormError MultilineListField :=
  if !Rust.containsSub input name then .error (.malformedField name)
  else
    let stripped := Rust.trim (Rust.trimStartMatches input (name ++ str ":"))
    let values := if stripped = [] then [] else Rust.splitChar stripped '\n'
    if values = [] then .error (.requiredFieldEmpty name)
    else .ok (MultilineListField.new name values)

def MultilineListField.value (f : MultilineListField) : Str :=
  List.intercalate (str "\n") f.values

def MultilineListField.as_string (f : MultilineListField) : Str :=
  f.name ++ str ":\n" ++ f.value

structure OptionalMultilineListField where
  name : Str
  values : List Str
deriving DecidableEq

def OptionalMultilineListField.new (name : Str) (values : List Str) :
    OptionalMultilineListField :=
  ⟨name, values⟩

def OptionalMultilineListField.from_input_str (name input : Str) :
    Except FormError OptionalMultilineListField :=
  if !Rust.containsSub input name then .error (.malformedField name)
  else
    let stripped := Rust.trim (Rust.trimStartMatches input (name ++ str ":"))
    let values := if stripped = [] then [] else Rust.splitChar stripped '\n'
    .ok (OptionalMultilineListField.new name values)

def OptionalMultilineListField.value (f : OptionalMultilineListField) : Str :=
  List.intercalate (str "\n") f.values

def OptionalMultilineListField.as_string (f : OptionalMultilineListField) : Str :=
  f.name ++ str ":\n" ++ f.value

structure ChoiceField where
  name : Str
  value : Str
  choices : List Str
deriving DecidableEq

def ChoiceField.new (name value : Str) : ChoiceField := ⟨name, value, []⟩

def ChoiceField.add_choices (f : ChoiceField) (choices : List Str) : ChoiceField :=
  { f with choices := f.choices ++ choices }

def ChoiceField.from_input_str (name input : Str) : Except FormError ChoiceField :=
  if !Rust.containsSub input name then .error (.malformedField name)
  else
    let val := Rust.trim (Rust.trimStartMatches input (name ++ str ": "))
    if val = [] then .error (.requiredFieldEmpty name)
    else .ok (ChoiceField.new name val)

def ChoiceField.as_string (f : ChoiceField) : Str :=
  Rust.trim (f.name ++ str ":" ++
    (if f.value.isEmpty then
      str "\n" ++ str "## CHOOSE ONE ##" ++ str "\n" ++
        (f.choices.map (fun c => c ++ str "\n")).flatten
    else str " " ++ f.value))

structure OptionalChoiceField where
  name : Str
  value : Str
  choices : List Str
deriving DecidableEq

def OptionalChoiceField.new (name value : Str) : OptionalChoiceField :=
  ⟨name, value, []⟩

def OptionalChoiceField.add_choices (f : OptionalChoiceField)
    (choices : List Str) : OptionalChoiceField :=
  { f with choices := f.choices ++ choices }

def OptionalChoiceField.from_input_str (name input : Str) :
    Except FormError OptionalChoiceField :=
  if !Rust.containsSub input name then .error (.malformedField name)
  else
    let val := Rust.trim (Rust.trimStartMatches input (name ++ str ":"))
    .ok (OptionalChoiceField.new name val)

def OptionalChoiceField.as_string (f : OptionalChoiceField) : Str :=
  Rust.trim (f.name ++ str ":" ++
    (if f.value.isEmpty then
      str "\n" ++
        (if f.choices.isEmpty then []
         else str "## CHOOSE ONE OR NONE ##" ++ str "\n" ++
           (f.choices.map (fun c => c ++ str "\n")).flatten)
    else str " " ++ f.value))

structure BooleanField where
  name : Str
  value : Bool
deriving DecidableEq

def BooleanField.new (name : Str) (value : Bool) : BooleanField := ⟨name, value⟩

def BooleanField.valueString (f : BooleanField) : Str :=
  if f.value then str "Yes" else str "No"

def BooleanField.as_string (f : BooleanField) : Str :=
  f.name ++ str ": " ++ f.valueString

def BooleanField.from_input_str (name input : Str) : Except FormError BooleanField :=
  if !Rust.containsSub input name then .error (.malformedField name)
  else
    let val := Rust.trim (Rust.trimStartMatches input (name ++ str ": "))
    if val = [] then .error (.requiredFieldEmpty name)
    else if Rust.toLowercase val = str "yes" || Rust.toLowercase val = str "no" then
      .error (.malformedField name)
    else .ok (BooleanField.new name (Rust.toLowercase val = str "yes"))

/-- Closed union standing in for `Box<dyn FormField>`: one constructor per
field struct stored in a `Form`. -/
inductive AnyField
  | text (f : TextField)
  | multilineText (f : MultilineTextField)
  | optionalMultilineText (f : OptionalMultilineTextField)
  | optionalChoiceList (f : OptionalChoiceListField)
  | list (f : ListField)
  | optionalList (f : OptionalListField)
  | multilineList (f : MultilineListField)
  | optionalMultilineList (f : OptionalMultilineListField)
  | choice (f : ChoiceField)
  | optionalChoice (f : OptionalChoiceField)
  | boolean (f : BooleanField)
deriving DecidableEq

/-- Dispatch of the `FormField::name` trait method. -/
def AnyField.fieldName : AnyField → Str
  | .text f => f.name
  | .multilineText f => f.name
  | .optionalMultilineText f => f.name
  | .optionalChoiceList f => f.name
  | .list f => f.name
  | .optionalList f => f.name
  | .multilineList f => f.name
  | .optionalMultilineList f => f.name
  | .choice f => f.name
  | .optionalChoice f => f.name
  | .boolean f => f.name

/-- Dispatch of the `FormField::value` trait method. -/
def AnyField.fieldValue : AnyField → Str
  | .text f => f.value
  | .multilineText f => f.value
  | .optionalMultilineText f => f.value
  | .optionalChoiceList f => f.value
  | .list f => f.value
  | .optionalList f => f.value
  | .multilineList f => f.value
  | .optionalMultilineList f => f.value
  | .choice f => f.value
  | .optionalChoice f => f.value
  | .boolean f => f.valueString

/-- Dispatch of the `FormField::as_string` trait method. -/
def AnyField.asString : AnyField → Str
  | .text f => f.as_string
  | .multilineText f => f.as_string
  | .optionalMultilineText f => f.as_string
  | .optionalChoiceList f => f.as_string
  | .list f => f.as_string
  | .optionalList f => f.as_string
  | .multilineList f => f.as_string
  | .optionalMultilineList f => f.as_string
  | .choice f => f.as_string
  | .optionalChoice f => f.as_string
  | .boolean f => f.as_string

/-- Embedding of `Form` from `src/tools/src/editing/forms.rs`. -/
structure Form where
  fields : List AnyField
deriving DecidableEq

def Form.new : Form := ⟨[]⟩

def Form.add_field (form : Form) (f : AnyField) : Form :=
  ⟨form.fields ++ [f]⟩

def Form.get_field (form : Form) (name : Str) : Except FormError AnyField :=
  match form.fields.find? (fun f => f.fieldName == name) with
  | some f => .ok f
  | none => .error (.fieldNotFound name)

/-- Embedding of `Form::get_field_as::<OptionalChoiceListField>`. -/
def Form.getOptionalChoiceList (form : Form) (name : Str) :
    Except FormError OptionalChoiceListField :=
  match form.get_field name with
  | .error e => .error e
  | .ok (.optionalChoiceList f) => .ok f
  | .ok _ => .error (.incorrectType name)

/-- Embedding of `Form::get_field_as::<ListField>`. -/
def Form.getListField (form : Form) (name : Str) : Except FormError ListField :=
  match form.get_field name with
  | .error e => .error e
  | .ok (.list f) => .ok f
  | .ok _ => .error (.incorrectType name)

/-- Embedding of `Form::get_field_as::<OptionalListField>`. -/
def Form.getOptionalListField (form : Form) (name : Str) :
    Except FormError OptionalListField :=
  match form.get_field name with
  | .error e => .error e
  | .ok (.optionalList f) => .ok f
  | .ok _ => .error (.incorrectType name)

/-- Embedding of `Form::get_field_as::<OptionalMultilineListField>`. -/
def Form.getOptionalMultilineListField (form : Form) (name : Str) :
    Except FormError OptionalMultilineListField :=
  match form.get_field name with
  | .error e => .error e
  | .ok (.optionalMultilineList f) => .ok f
  | .ok _ => .error (.incorrectType name)

/-- Loop body of `Form::as_string`: append each field's rendering and, after
every field but the last, the separator `"\n---\n"`. -/
def Form.joinRendered : List AnyField → Str
  | [] => []
  | [f] => f.asString
  | f :: g :: rest => f.asString ++ str "\n---\n" ++ Form.joinRendered (g :: rest)

/-- Embedding of `Form::as_string`. -/
def Form.as_string (form : Form) : Str :=
  Rust.trim (Form.joinRendered form.fields)

/-! Model types from `src/db/src/models.rs` and helpers from
`src/db/src/helpers.rs`, restricted to what the editing codecs use. -/

def natToStr (n : Nat) : Str := Nat.toDigits 10 n

/-- Zero-pad to width two, as Rust's `{:02}` does for the non-negative
numbers this code formats. -/
def pad2 (n : Nat) : Str := if n < 10 then '0' :: natToStr n else natToStr n

/-- Zero-pad to width four, as chrono's `%Y` does for common-era years. -/
def pad4 (n : Nat) : Str :=
  let d := natToStr n
  List.replicate (4 - d.length) '0' ++ d

def pad2Int (i : Int) : Str :=
  if 0 ≤ i then pad2 i.toNat else '-' :: natToStr i.natAbs

def digitsToNat (s : Str) : Nat :=
  s.foldl (fun acc c => acc * 10 + (c.toNat - '0'.toNat)) 0

def allDigits (s : Str) : Bool := !s.isEmpty && s.all Char.isDigit

/-- Embedding of `chrono::NaiveDate` as a plain year/month/day record. -/
structure NaiveDate where
  year : Int
  month : Nat
  day : Nat
deriving DecidableEq

def isLeapYear (y : Int) : Bool := y % 4 == 0 && (y % 100 != 0 || y % 400 == 0)

def daysInMonth (y : Int) (m : Nat) : Nat :=
  if m = 2 then (if isLeapYear y then 29 else 28)
  else if m = 4 ∨ m = 6 ∨ m = 9 ∨ m = 11 then 30
  else 31

/-- Embedding of `NaiveDate`'s `Display`/`to_string` (format `%Y-%m-%d`);
the archive only holds common-era dates, so the year is rendered with
four-digit zero padding. -/
def NaiveDate.toStr (d : NaiveDate) : Str :=
  pad4 d.year.toNat ++ str "-" ++ pad2 d.month ++ str "-" ++ pad2 d.day

/-- Embedding of `str::parse::<NaiveDate>` (chrono `FromStr`, ISO
`%Y-%m-%d`) for common-era dates: three dash-separated digit groups with a
calendar-valid month and day. -/
def parseNaiveDate (s : Str) : Option NaiveDate :=
  match Rust.splitChar s '-' with
  | [y, m, d] =>
    if allDigits y && allDigits m && allDigits d then
      let mn := digitsToNat m
      let dn := digitsToNat d
      if 1 ≤ mn ∧ mn ≤ 12 ∧ 1 ≤ dn ∧ dn ≤ daysInMonth (digitsToNat y) mn then
        some ⟨digitsToNat y, mn, dn⟩
      else none
    else none
  | _ => none

/-- Embedding of `chrono::Duration` as a signed nanosecond count. -/
structure Duration where
  nanos : Int
deriving DecidableEq

def Duration.milliseconds (ms : Int) : Duration := ⟨ms * 1000000⟩

def Duration.num_hours (d : Duration) : Int := Int.tdiv d.nanos 3600000000000

def Duration.num_minutes (d : Duration) : Int := Int.tdiv d.nanos 60000000000

def Duration.num_seconds (d : Duration) : Int := Int.tdiv d.nanos 1000000000

/-- Embedding of `sqlx::postgres::types::PgInterval`. -/
structure PgInterval where
  months : Int
  days : Int
  microseconds : Int
deriving DecidableEq

/-- Embedding of `interval_to_duration` from `src/db/src/helpers.rs`. -/
def interval_to_duration (i : PgInterval) : Duration :=
  ⟨Int.tdiv i.microseconds 1000000 * 1000000000 + Int.tmod i.microseconds 1000000 * 1000⟩

/-- Embedding of `PgInterval::try_from(Duration)` (months and days zero,
microsecond payload; the overflow failure mode cannot occur for the
durations this code builds). -/
def pgIntervalOfDuration (d : Duration) : PgInterval :=
  ⟨0, 0, Int.tdiv d.nanos 1000⟩

/-- Matcher for the first `parse_duration` regex
`^(\d+):(\d+):(\d+)(?:\.(\d+))?$`: hours, minutes, seconds and an optional
fractional part (which the source parses as a plain integer of
milliseconds). -/
def parseHmsParts (time : Str) : Option (Nat × Nat × Nat × Nat) :=
  match Rust.splitChar time ':' with
  | [h, m, sfrac] =>
    if allDigits h && allDigits m then
      match Rust.splitChar sfrac '.' with
      | [s0] =>
        if allDigits s0 then some (digitsToNat h, digitsToNat m, digitsToNat s0, 0)
        else none
      | [s0, frac] =>
        if allDigits s0 && allDigits frac then
          some (digitsToNat h, digitsToNat m, digitsToNat s0, digitsToNat frac)
        else none
      | _ => none
    else none
  | _ => none

/-- Matcher for the second `parse_duration` regex `^(?:(\d+)m)?(?:(\d+)s)?$`:
an optional minutes group and an optional seconds group (the empty string
matches with both groups absent). -/
def parseMinSecParts (time : Str) : Option (Nat × Nat) :=
  let d1 := time.takeWhile Char.isDigit
  let r1 := time.dropWhile Char.isDigit
  let (minutes, rest) :=
    match r1 with
    | 'm' :: r2 => if d1.isEmpty then (0, time) else (digitsToNat d1, r2)
    | _ => (0, time)
  let d2 := rest.takeWhile Char.isDigit
  let r2 := rest.dropWhile Char.isDigit
  match r2 with
  | ['s'] => if d2.isEmpty then none else some (minutes, digitsToNat d2)
  | [] => if d2.isEmpty then some (minutes, 0) else none
  | _ => none

/-- Embedding of `parse_duration` from `src/db/src/helpers.rs`. -/
def parse_duration (time : Str) : Duration :=
  match parseHmsParts time with
  | some (h, m, s, ms) =>
    Duration.milliseconds (h * 3600000 + m * 60000 + s * 1000 + ms)
  | none =>
    match parseMinSecParts time with
    | some (m, s) => Duration.milliseconds (m * 60000 + s * 1000)
    | none => ⟨0⟩

/-- Embedding of `duration_to_string` from `src/db/src/helpers.rs`. -/
def duration_to_string (d : Duration) : Str :=
  pad2Int d.num_hours ++ str ":" ++ pad2Int (Int.tmod d.num_minutes 60) ++ str ":" ++
    pad2Int (Int.tmod d.num_seconds 60)

/-- Embedding of the `Category` enum. -/
inductive Category
  | amateurFootage
  | compilation
  | documentary
  | news
  | professionalFootage
  | survivorAccount
deriving DecidableEq, Inhabited

def Category.toStr : Category → Str
  | .amateurFootage => str "amateur-footage"
  | .compilation => str "compilation"
  | .documentary => str "documentary"
  | .news => str "news"
  | .professionalFootage => str "professional-footage"
  | .survivorAccount => str "survivor-account"

/-- Embedding of `impl From<&str> for Category`; `none` stands for the
`panic!` on the wildcard arm.  The source's match (models.rs:331-342) has no
arm for `"survivor-account"`, so that string also falls to the panic arm. -/
def Category.fromStr (s : Str) : Option Category :=
  if s = str "amateur-footage" then some .amateurFootage
  else if s = str "compilation" then some .compilation
  else if s = str "documentary" then some .documentary
  else if s = str "news" then some .news
  else if s = str "professional-footage" then some .professionalFootage
  else none

/-- Embedding of the `EventType` enum. -/
inductive EventType
  | cameraSource
  | jumper
  | key
  | normal
  | person
  | pentagonAttack
  | report
  | wtc1Collapse
  | wtc1Impact
  | wtc2Collapse
  | wtc2Impact
deriving DecidableEq, Inhabited

def EventType.toStr : EventType → Str
  | .cameraSource => str "camera-source"
  | .jumper => str "jumper"
  | .key => str "key"
  | .normal => str "normal"
  | .person => str "person"
  | .pentagonAttack => str "pentagon-attack"
  | .report => str "report"
  | .wtc1Collapse => str "wtc1-collapse"
  | .wtc1Impact => str "wtc1-impact"
  | .wtc2Collapse => str "wtc2-collapse"
  | .wtc2Impact => str "wtc2-impact"

/-- Embedding of `impl From<&str> for EventType`; `none` stands for the
`panic!` on the wildcard arm. -/
def EventType.fromStr (s : Str) : Option EventType :=
  if s = str "camera-source" then some .cameraSource
  else if s = str "jumper" then some .jumper
  else if s = str "key" then some .key
  else if s = str "normal" then some .normal
  else if s = str "person" then some .person
  else if s = str "pentagon-attack" then some .pentagonAttack
  else if s = str "report" then some .report
  else if s = str "wtc1-collapse" then some .wtc1Collapse
  else if s = str "wtc1-impact" then some .wtc1Impact
  else if s = str "wtc2-collapse" then some .wtc2Collapse
  else if s = str "wtc2-impact" then some .wtc2Impact
  else none

/-- Embedding of `EventTimestamp`; `time_of_day` (a `NaiveTime` whose seconds
are always zero here) is carried as an hour/minute pair. -/
structure EventTimestamp where
  id : Int
  description : Str
  timestamp : PgInterval
  event_type : EventType
  time_of_day : Option (Nat × Nat)
deriving DecidableEq

/-- Failure of `EventTimestamp::try_from`.  `formatErr` is the `Err` the
source returns when neither regex matches; `unknownEventType` stands for the
`panic!` raised inside `EventType::from` when the captured event-type word is
not a known variant (the distinction does not matter to callers: the only
call site unwraps the result, so both end in a panic). -/
inductive TimestampFailure
  | formatErr
  | unknownEventType (w : Str)
deriving DecidableEq

/-- Word characters of the regex class `[\w-]`. -/
def isWordOrHyphen (c : Char) : Bool := c.isAlphanum || c == '_' || c == '-'

/-- Match the leading `^(\d{2}:\d{2}:\d{2}): ` portion shared by both
`EventTimestamp::try_from` regexes, returning the time text and the rest. -/
def matchTimeHead : Str → Option (Str × Str)
  | a :: b :: c1 :: d :: e :: c2 :: f :: g :: ':' :: ' ' :: rest =>
    if a.isDigit && b.isDigit && c1 == ':' && d.isDigit && e.isDigit &&
        c2 == ':' && f.isDigit && g.isDigit then
      some ([a, b, c1, d, e, c2, f, g], rest)
    else none
  | _ => none

/-- Match a final `([\w-]+)]` that must reach the end of the string (the
event-type capture of both regexes, anchored by `$`). -/
def matchEventTypeEnd (s : Str) : Option Str :=
  match s.reverse with
  | ']' :: revWord =>
    let w := revWord.reverse
    if !w.isEmpty && w.all isWordOrHyphen then some w else none
  | _ => none

/-- Match the tail ` \[(\d{4})?\] \[([\w-]+)\]$` of the first
`EventTimestamp::try_from` regex at the current description split point. -/
def matchTail1 (s : Str) : Option (Option Str × Str) :=
  match s with
  | ' ' :: '[' :: rest =>
    match rest with
    | a :: b :: c :: d :: ']' :: ' ' :: '[' :: rest2 =>
      if a.isDigit && b.isDigit && c.isDigit && d.isDigit then
        match matchEventTypeEnd rest2 with
        | some w => some (some [a, b, c, d], w)
        | none => none
      else
        match rest with
        | ']' :: ' ' :: '[' :: rest3 =>
          match matchEventTypeEnd rest3 with
          | some w => some (none, w)
          | none => none
        | _ => none
    | ']' :: ' ' :: '[' :: rest3 =>
      match matchEventTypeEnd rest3 with
      | some w => some (none, w)
      | none => none
    | _ => none
  | _ => none

/-- Match the tail ` \[([\w-]+)\]$` of the second (simple) regex. -/
def matchTail2 (s : Str) : Option Str :=
  match s with
  | ' ' :: '[' :: rest => matchEventTypeEnd rest
  | _ => none

/-- Lazy `(.+?)` scan: find the shortest non-empty description prefix (the
regex `.` does not cross a newline) after which `tailMatch` accepts the
remainder. -/
def scanLazyDesc {α} (tailMatch : Str → Option α) : Str → Str → Option (Str × α)
  | _, [] => none
  | acc, c :: rest =>
    if c == '\n' then none
    else
      match tailMatch rest with
      | some a => some (acc ++ [c], a)
      | none => scanLazyDesc tailMatch (acc ++ [c]) rest

/-- Parse the four time-of-day digits through `NaiveTime::from_hms_opt`
(which yields `None` for an out-of-range hour or minute). -/
def timeOfDayOfDigits (tod : Str) : Option (Nat × Nat) :=
  let hours := digitsToNat (tod.take 2)
  let minutes := digitsToNat (tod.drop 2)
  if hours < 24 ∧ minutes < 60 then some (hours, minutes) else none

/-- Embedding of `impl TryFrom<&str> for EventTimestamp`
(models.rs:413-456): try the time-of-day regex first, then the simple one;
on a match, parse the duration, convert the event type (panicking on an
unknown word) and optionally the time of day. -/
def EventTimestamp.try_from (s : Str) : Except TimestampFailure EventTimestamp :=
  match matchTimeHead s with
  | none => .error .formatErr
  | some (time, rest) =>
    match scanLazyDesc matchTail1 [] rest with
    | some (desc, (todDigits, word)) =>
      match EventType.fromStr word with
      | none => .error (.unknownEventType word)
      | some et =>
        .ok { id := 0, description := Rust.trim desc,
              timestamp := pgIntervalOfDuration (parse_duration time),
              event_type := et,
              time_of_day := todDigits.bind timeOfDayOfDigits }
    | none =>
      match scanLazyDesc matchTail2 [] rest with
      | some (desc, word) =>
        match EventType.fromStr word with
        | none => .error (.unknownEventType word)
        | some et =>
          .ok { id := 0, description := Rust.trim desc,
                timestamp := pgIntervalOfDuration (parse_duration time),
                event_type := et,
                time_of_day := none }
      | none => .error .formatErr

/-- Embedding of the `PersonType` enum. -/
inductive PersonType
  | eyewitness
  | fire
  | police
  | portAuthority
  | reporter
  | survivor
  | victim
  | videographer
deriving DecidableEq, Inhabited

def PersonType.toStr : PersonType → Str
  | .eyewitness => str "Eyewitness"
  | .fire => str "Fire"
  | .police => str "Police"
  | .portAuthority => str "Port Authority"
  | .reporter => str "Reporter"
  | .survivor => str "Survivor"
  | .victim => str "Victim"
  | .videographer => str "Videographer"

/-- Embedding of the `Person` model. -/
structure Person where
  id : Int
  name : Str
  historical_title : Option Str
  description : Option Str
  types : List PersonType
deriving DecidableEq

/-- Embedding of the `NewsNetwork` model. -/
structure NewsNetwork where
  id : Int
  name : Str
  description : Str
deriving DecidableEq

/-- Embedding of the `NewsAffiliate` model. -/
structure NewsAffiliate where
  id : Int
  name : Str
  description : Str
  region : Str
  network : NewsNetwork
deriving DecidableEq

/-- Embedding of the `NewsBroadcast` model.  The repository's snapshots
disagree on whether `description` is optional (`db/src/models.rs` stores
`Option<String>` while `news_broadcast_from_form` assigns the plain form
string); the editing codec under verification treats it as a plain string,
so that is what is modelled. -/
structure NewsBroadcast where
  id : Int
  date : Option NaiveDate
  description : Str
  news_network : Option NewsNetwork
  news_affiliate : Option NewsAffiliate
deriving DecidableEq

/-- Embedding of `impl Display for NewsBroadcast` (models.rs:522-535). -/
def NewsBroadcast.toDisplayString (b : NewsBroadcast) : Str :=
  (match b.news_network with
   | some n => n.name
   | none =>
     match b.news_affiliate with
     | some a => a.name
     | none => []) ++
  (match b.date with
   | some d => str " (" ++ NaiveDate.toStr d ++ str ")"
   | none => [])

/-- Embedding of `impl Display for EventTimestamp` (models.rs:458-471). -/
def EventTimestamp.toDisplayString (t : EventTimestamp) : Str :=
  duration_to_string (interval_to_duration t.timestamp) ++ str ": " ++ t.description ++
    (match t.time_of_day with
     | some (h, m) => str " [" ++ pad2 h ++ pad2 m ++ str "]"
     | none => []) ++
    str " [" ++ t.event_type.toStr ++ str "]"

/-- Embedding of the `MasterVideo` model; a NIST file reference is a path
paired with a size. -/
structure MasterVideo where
  categories : List Category
  date : Option NaiveDate
  description : Str
  id : Int
  links : List Str
  news_broadcasts : List NewsBroadcast
  nist_files : List (Str × Nat)
  nist_notes : Option Str
  people : List Person
  timestamps : List EventTimestamp
  title : Str
deriving DecidableEq

/-- Names of the people of `model` carrying the given role tag, as the
`filter_map` in `impl From<&MasterVideo> for Form` computes them. -/
def MasterVideo.peopleNames (model : MasterVideo) (t : PersonType) : List Str :=
  model.people.filterMap (fun p => if p.types.contains t then some p.name else none)

/-! Entity codecs from `src/tools/src/editing/`. -/

/-- Error type of the codec functions (the source returns
`color_eyre::Result`): a form error, an ad-hoc `eyre!` message, a date parse
error, a database-layer error, or — distinguished from all typed errors — an
abnormal termination by `panic!`/`unwrap`. -/
inductive DbError
  | newsBroadcastCannotHaveNetworkAndAffiliate
  | newsBroadcastDoesNotHaveNetworkOrAffiliate
deriving DecidableEq

inductive ToolError
  | form (e : FormError)
  | eyre (msg : Str)
  | dateParse
  | db (e : DbError)
  | panicked (msg : Str)
deriving DecidableEq

/-- Decidable equality for `Except`, so that concrete runs of the codec
functions can be checked by `decide`. -/
instance {ε α : Type} [DecidableEq ε] [DecidableEq α] : DecidableEq (Except ε α) := fun x y =>
  match x, y with
  | .ok a, .ok b =>
    if h : a = b then isTrue (by rw [h]) else isFalse (by intro hc; cases hc; exact h rfl)
  | .error e, .error f =>
    if h : e = f then isTrue (by rw [h]) else isFalse (by intro hc; cases hc; exact h rfl)
  | .ok _, .error _ => isFalse (by intro hc; cases hc)
  | .error _, .ok _ => isFalse (by intro hc; cases hc)

def liftForm {α} : Except FormError α → Except ToolError α
  | .ok a => .ok a
  | .error e => .error (.form e)

/-- Embedding of `Form::from_master_video_str` (masters.rs:15-80). -/
def Form.from_master_video_str (s : Str) : Except FormError Form := do
  let parts := Rust.splitOnStr s (str "---\n")
  if parts.length ≠ 17 then .error .malformedForm
  else do
    let f0 ← OptionalChoiceListField.from_input_str (str "News Broadcasts") (parts.getD 0 [])
    let f1 ← TextField.from_input_str (str "Title") (parts.getD 1 [])
    let f2 ← ListField.from_input_str (str "Categories") (parts.getD 2 [])
    let f3 ← TextField.from_input_str (str "Date") (parts.getD 3 [])
    let f4 ← MultilineTextField.from_input_str (str "Description") (parts.getD 4 [])
    let f5 ← OptionalListField.from_input_str (str "Links") (parts.getD 5 [])
    let f6 ← OptionalMultilineListField.from_input_str (str "Timestamps") (parts.getD 6 [])
    let f7 ← OptionalMultilineTextField.from_input_str (str "NIST Notes") (parts.getD 7 [])
    let f8 ← OptionalListField.from_input_str (str "Eyewitnesses") (parts.getD 8 [])
    let f9 ← OptionalListField.from_input_str (str "Fire") (parts.getD 9 [])
    let f10 ← OptionalListField.from_input_str (str "Police") (parts.getD 10 [])
    let f11 ← OptionalListField.from_input_str (str "Port Authority") (parts.getD 11 [])
    let f12 ← OptionalListField.from_input_str (str "Reporters") (parts.getD 12 [])
    let f13 ← OptionalListField.from_input_str (str "Survivors") (parts.getD 13 [])
    let f14 ← OptionalListField.from_input_str (str "Victims") (parts.getD 14 [])
    let f15 ← OptionalListField.from_input_str (str "Videographers") (parts.getD 15 [])
    let f16 ← OptionalMultilineListField.from_input_str (str "NIST Files") (parts.getD 16 [])
    pure ⟨[.optionalChoiceList f0, .text f1, .list f2, .text f3, .multilineText f4,
           .optionalList f5, .optionalMultilineList f6, .optionalMultilineText f7,
           .optionalList f8, .optionalList f9, .optionalList f10, .optionalList f11,
           .optionalList f12, .optionalList f13, .optionalList f14, .optionalList f15,
           .optionalMultilineList f16]⟩

/-- Embedding of `Form::from_video_str` (videos.rs:11-33). -/
def Form.from_video_str (s : Str) : Except FormError Form := do
  let parts := Rust.splitOnStr s (str "---\n")
  if parts.length ≠ 7 then .error .malformedForm
  else do
    let f0 ← ChoiceField.from_input_str (str "Master") (parts.getD 0 [])
    let f1 ← TextField.from_input_str (str "Title") (parts.getD 1 [])
    let f2 ← TextField.from_input_str (str "Channel") (parts.getD 2 [])
    let f3 ← OptionalMultilineListField.from_input_str (str "Description") (parts.getD 3 [])
    let f4 ← TextField.from_input_str (str "Link") (parts.getD 4 [])
    let f5 ← TextField.from_input_str (str "Duration") (parts.getD 5 [])
    let f6 ← BooleanField.from_input_str (str "Primary") (parts.getD 6 [])
    pure ⟨[.choice f0, .text f1, .text f2, .optionalMultilineList f3, .text f4,
           .text f5, .boolean f6]⟩

/-- Embedding of `Form::from_news_network_str` (news.rs:8-22). -/
def Form.from_news_network_str (s : Str) : Except FormError Form := do
  let parts := Rust.splitOnStr s (str "---\n")
  if parts.length ≠ 2 then .error .malformedForm
  else do
    let f0 ← TextField.from_input_str (str "Name") (parts.getD 0 [])
    let f1 ← MultilineTextField.from_input_str (str "Description") (parts.getD 1 [])
    pure ⟨[.text f0, .multilineText f1]⟩

/-- Embedding of `Form::from_news_affiliate_str` (news.rs:24-40). -/
def Form.from_news_affiliate_str (s : Str) : Except FormError Form := do
  let parts := Rust.splitOnStr s (str "---\n")
  if parts.length ≠ 4 then .error .malformedForm
  else do
    let f0 ← ChoiceField.from_input_str (str "Network") (parts.getD 0 [])
    let f1 ← TextField.from_input_str (str "Name") (parts.getD 1 [])
    let f2 ← MultilineTextField.from_input_str (str "Description") (parts.getD 2 [])
    let f3 ← TextField.from_input_str (str "Region") (parts.getD 3 [])
    pure ⟨[.choice f0, .text f1, .multilineText f2, .text f3]⟩

/-- Embedding of `Form::from_news_broadcast_str` (news.rs:42-62). -/
def Form.from_news_broadcast_str (s : Str) : Except FormError Form := do
  let parts := Rust.splitOnStr s (str "---\n")
  if parts.length ≠ 4 then .error .malformedForm
  else do
    let f0 ← OptionalChoiceField.from_input_str (str "Network") (parts.getD 0 [])
    let f1 ← OptionalChoiceField.from_input_str (str "Affiliate") (parts.getD 1 [])
    let f2 ← TextField.from_input_str (str "Date") (parts.getD 2 [])
    let f3 ← MultilineTextField.from_input_str (str "Description") (parts.getD 3 [])
    pure ⟨[.optionalChoice f0, .optionalChoice f1, .text f2, .multilineText f3]⟩

/-- Embedding of `Form::from_nist_video_str` (nist_videos.rs:7-23). -/
def Form.from_nist_video_str (s : Str) : Except FormError Form := do
  let parts := Rust.splitOnStr s (str "---\n")
  if parts.length ≠ 2 then .error .malformedForm
  else do
    let f0 ← BooleanField.from_input_str (str "Missing?") (parts.getD 0 [])
    let f1 ← OptionalMultilineTextField.from_input_str (str "Additional Notes") (parts.getD 1 [])
    pure ⟨[.boolean f0, .optionalMultilineText f1]⟩

/-- Embedding of `Form::from_nist_tape_str` (nist_tapes.rs:9-16): the whole
input is fed to a single optional multiline list field, with no splitting
and no section-count check. -/
def Form.from_nist_tape_str (s : Str) : Except FormError Form := do
  let f0 ← OptionalMultilineListField.from_input_str (str "NIST Files") s
  pure ⟨[.optionalMultilineList f0]⟩

/-- Embedding of `impl From<&MasterVideo> for Form` (masters.rs:83-239).
The `Links` field is populated from `model.categories` and the `NIST Files`
field from `model.timestamps`, exactly as the source does on lines 108-111
and 232-235. -/
def Form.fromMasterVideo (model : MasterVideo) : Form :=
  ⟨[.optionalChoiceList (OptionalChoiceListField.new (str "News Broadcasts")
      (model.news_broadcasts.map NewsBroadcast.toDisplayString)),
    .text (TextField.new (str "Title") model.title),
    .list (ListField.new (str "Categories") (model.categories.map Category.toStr)),
    .text (TextField.new (str "Date")
      (match model.date with | some d => d.toStr | none => [])),
    .multilineText (MultilineTextField.new (str "Description") model.description),
    .optionalList (OptionalListField.new (str "Links")
      (model.categories.map Category.toStr)),
    .optionalMultilineList (OptionalMultilineListField.new (str "Timestamps")
      (model.timestamps.map EventTimestamp.toDisplayString)),
    .optionalMultilineText (OptionalMultilineTextField.new (str "NIST Notes")
      (model.nist_notes.getD [])),
    .list (ListField.new (str "Eyewitnesses") (model.peopleNames .eyewitness)),
    .list (ListField.new (str "Fire") (model.peopleNames .fire)),
    .list (ListField.new (str "Police") (model.peopleNames .police)),
    .list (ListField.new (str "Port Authority") (model.peopleNames .portAuthority)),
    .list (ListField.new (str "Reporters") (model.peopleNames .reporter)),
    .list (ListField.new (str "Survivors") (model.peopleNames .survivor)),
    .list (ListField.new (str "Victims") (model.peopleNames .victim)),
    .list (ListField.new (str "Videographers") (model.peopleNames .videographer)),
    .optionalMultilineList (OptionalMultilineListField.new (str "NIST Files")
      (model.timestamps.map EventTimestamp.toDisplayString))]⟩

/-- Embedding of `get_people_from_input` (editing/mod.rs:12-40). -/
def get_people_from_input (input : List Str) (people : List Person)
    (person_type : PersonType) : List Person :=
  input.map (fun nm =>
    match people.find? (fun p => p.name == nm) with
    | some p => { id := p.id, name := nm, description := p.description,
                  historical_title := p.historical_title, types := [person_type] }
    | none => { id := 0, name := nm, description := none,
                historical_title := none, types := [person_type] })

/-- First of the two per-role loops of `master_video_from_form`
(masters.rs:314-318): push each resolved person whose name is not already
present. -/
def addNewPeople (acc : List Person) (input : List Person) : List Person :=
  input.foldl
    (fun a person => if a.any (fun q => q.name == person.name) then a else a ++ [person])
    acc

/-- Second of the two per-role loops (masters.rs:321-327): for every
accumulated person matched by name in the current role's input, append the
role tag unless it is already present.  The source reads `p.types[0]`; every
element produced by `get_people_from_input` has a singleton `types`, so the
head with a default is a faithful total rendering. -/
def applyRoleTag (input : List Person) (person : Person) : Person :=
  match input.find? (fun p => p.name == person.name) with
  | some p =>
    if person.types.contains p.types.headI then person
    else { person with types := person.types ++ [p.types.headI] }
  | none => person

def addRoleTags (acc : List Person) (input : List Person) : List Person :=
  acc.map (applyRoleTag input)

/-- One iteration of the loop over the role pairs in
`master_video_from_form`. -/
def processPersonField (people : List Person) (acc : List Person)
    (values : List Str) (pt : PersonType) : List Person :=
  let input := get_people_from_input values people pt
  addRoleTags (addNewPeople acc input) input

/-- The whole people-merging fold of `master_video_from_form`
(masters.rs:296-328), abstracted over the role pairs. -/
def collectPeoplePure (people : List Person)
    (pairs : List (List Str × PersonType)) : List Person :=
  pairs.foldl (fun acc pr => processPersonField people acc pr.1 pr.2) []

/-- The fixed label/role pairs of `master_video_from_form` (masters.rs:296-305). -/
def personPairs : List (Str × PersonType) :=
  [(str "Eyewitnesses", .eyewitness), (str "Fire", .fire), (str "Police", .police),
   (str "Port Authority", .portAuthority), (str "Reporters", .reporter),
   (str "Survivors", .survivor), (str "Victims", .victim),
   (str "Videographers", .videographer)]

def readPersonFields (form : Form) :
    List (Str × PersonType) → Except ToolError (List (List Str × PersonType))
  | [] => .ok []
  | (label, pt) :: rest => do
    let f ← liftForm (form.getOptionalListField label)
    let tail ← readPersonFields form rest
    pure ((f.values, pt) :: tail)

/-- Lookup of the form's `News Broadcasts` values in the reference list
(masters.rs:251-263); an unmatched display string is the `eyre!` error. -/
def resolveBroadcasts : List Str → List NewsBroadcast →
    Except ToolError (List NewsBroadcast)
  | [], _ => .ok []
  | i :: rest, bs =>
    match bs.find? (fun b => b.toDisplayString == i) with
    | some b => do
      let tail ← resolveBroadcasts rest bs
      pure (b :: tail)
    | none => .error (.eyre (i ++ str " is not a valid broadcast"))

/-- The `Category::from` map over the `Categories` values
(masters.rs:267-271); an unknown category string is a panic. -/
def mapCategories : List Str → Except ToolError (List Category)
  | [] => .ok []
  | c :: rest =>
    match Category.fromStr c with
    | some cat => do
      let tail ← mapCategories rest
      pure (cat :: tail)
    | none => .error (.panicked (c ++ str " is not a valid category"))

/-- The `EventTimestamp::try_from(t).unwrap()` map over the `Timestamps`
values (masters.rs:284-287): a line neither regex accepts makes the
`unwrap` panic instead of returning a typed error. -/
def unwrapTimestamps : List Str → Except ToolError (List EventTimestamp)
  | [] => .ok []
  | t :: rest =>
    match EventTimestamp.try_from t with
    | .ok et => do
      let tail ← unwrapTimestamps rest
      pure (et :: tail)
    | .error _ =>
      .error (.panicked (str "called Result::unwrap on an Err value" ++ str ": " ++ t))

/-- Embedding of `master_video_from_form` (masters.rs:241-353), in the
source's evaluation order (the date string is parsed last, inside the struct
literal). -/
def master_video_from_form (id : Int) (form : Form)
    (news_broadcasts : List NewsBroadcast) (people : List Person) :
    Except ToolError MasterVideo := do
  let bField ← liftForm (form.getOptionalChoiceList (str "News Broadcasts"))
  let resolvedBroadcasts ←
    if bField.values = [] then pure []
    else resolveBroadcasts bField.values news_broadcasts
  let titleField ← liftForm (form.get_field (str "Title"))
  let title := titleField.fieldValue
  let catField ← liftForm (form.getListField (str "Categories"))
  let categories ← mapCategories catField.values
  let dateField ← liftForm (form.get_field (str "Date"))
  let date := dateField.fieldValue
  let descField ← liftForm (form.get_field (str "Description"))
  let description := descField.fieldValue
  let linksField ← liftForm (form.getOptionalListField (str "Links"))
  let links := linksField.values
  let tsField ← liftForm (form.getOptionalMultilineListField (str "Timestamps"))
  let timestamps ← unwrapTimestamps tsField.values
  let notesField ← liftForm (form.get_field (str "NIST Notes"))
  let nist_notes :=
    if notesField.fieldValue = [] then none else some notesField.fieldValue
  let pairValues ← readPersonFields form personPairs
  let video_people := pairValues.foldl
    (fun acc pr => processPersonField people acc pr.1 pr.2) []
  let nfField ← liftForm (form.getOptionalMultilineListField (str "NIST Files"))
  let nist_files := nfField.values.map (fun n => (n, 0))
  let parsedDate ←
    match parseNaiveDate date with
    | some d => pure d
    | none => Except.error ToolError.dateParse
  pure { categories, date := some parsedDate, description, id, links,
         news_broadcasts := resolvedBroadcasts, nist_files, nist_notes,
         people := video_people, timestamps, title }

/-- Embedding of `news_broadcast_from_form` (news.rs:152-194). -/
def news_broadcast_from_form (id : Int) (form : Form)
    (networks : List NewsNetwork) (affiliates : List NewsAffiliate) :
    Except ToolError NewsBroadcast := do
  let nField ← liftForm (form.get_field (str "Network"))
  let network_name := nField.fieldValue
  let news_network ←
    if network_name = [] then pure none
    else
      match networks.find? (fun m => m.name == network_name) with
      | some n => pure (some n)
      | none => Except.error (.eyre (network_name ++ str " is not in the networks list"))
  let aField ← liftForm (form.get_field (str "Affiliate"))
  let affiliate_name := aField.fieldValue
  let news_affiliate ←
    if affiliate_name = [] then pure none
    else
      match affiliates.find? (fun m => m.name == affiliate_name) with
      | some a => pure (some a)
      | none =>
        Except.error (.eyre (affiliate_name ++ str " is not in the affiliates list"))
  let dateField ← liftForm (form.get_field (str "Date"))
  let descField ← liftForm (form.get_field (str "Description"))
  let parsedDate ←
    match parseNaiveDate dateField.fieldValue with
    | some d => pure d
    | none => Except.error ToolError.dateParse
  pure { id, date := some parsedDate, description := descField.fieldValue,
         news_affiliate, news_network }

/-- Embedding of `save_news_broadcast` (db/src/lib.rs:967-1050).  The
database inserts/updates are abstracted away: an insert of a new record
(identity 0) is modelled as returning `allocatedId`, an upsert of an
existing record as keeping its identity.  The validation structure — both
references present is an error before any database work, neither present is
an error after the dispatch — is exactly the source's. -/
def save_news_broadcast (allocatedId : Int) (broadcast : NewsBroadcast) :
    Except ToolError NewsBroadcast :=
  if broadcast.news_network.isSome && broadcast.news_affiliate.isSome then
    .error (.db .newsBroadcastCannotHaveNetworkAndAffiliate)
  else
    match broadcast.news_network with
    | some _ =>
      .ok { broadcast with id := if broadcast.id = 0 then allocatedId else broadcast.id }
    | none =>
      match broadcast.news_affiliate with
      | some _ =>
        .ok { broadcast with id := if broadcast.id = 0 then allocatedId else broadcast.id }
      | none => .error (.db .newsBroadcastDoesNotHaveNetworkOrAffiliate)

/-- The reconstruct-then-save pipeline for a news broadcast, as the
`news_broadcasts` command drives it. -/
def newsBroadcastPipeline (id allocatedId : Int) (form : Form)
    (networks : List NewsNetwork) (affiliates : List NewsAffiliate) :
    Except ToolError NewsBroadcast := do
  let b ← news_broadcast_from_form id form networks affiliates
  save_news_broadcast allocatedId b

/-! Shared lemmas about the embedded string primitives. -/

lemma dropWhile_eq_self_append {p : Char → Bool} {l : Str} (m : Str)
    (h : List.dropWhile p l = l) (hne : l ≠ []) :
    List.dropWhile p (l ++ m) = l ++ m := by
  cases l with
  | nil => exact absurd rfl hne
  | cons c t =>
    have hc : p c = false := by
      by_contra hc
      have hc' : p c = true := by revert hc; cases p c <;> simp
      have := h
      rw [List.dropWhile_cons_of_pos hc'] at this
      have hlen := (List.dropWhile_suffix (l := t) p).length_le
      rw [this] at hlen
      simp at hlen
    simp [List.dropWhile_cons_of_neg, hc]

lemma trimStart_eq_of_trim_eq {s : Str} (h : Rust.trim s = s) : Rust.trimStart s = s := by
  have hsuffix : Rust.trimStart s <:+ s := List.dropWhile_suffix _
  have h1 : (Rust.trimStart s).length ≤ s.length := hsuffix.length_le
  have h2 : (Rust.trim s).length ≤ (Rust.trimStart s).length := by
    unfold Rust.trim Rust.trimEnd
    calc ((Rust.trimStart s).reverse.dropWhile Rust.isWhitespaceChar).reverse.length
        = ((Rust.trimStart s).reverse.dropWhile Rust.isWhitespaceChar).length := by
          rw [List.length_reverse]
      _ ≤ (Rust.trimStart s).reverse.length := (List.dropWhile_suffix _).length_le
      _ = (Rust.trimStart s).length := by rw [List.length_reverse]
  rw [h] at h2
  exact hsuffix.eq_of_length (le_antisymm h1 h2)

lemma trimEnd_eq_of_trim_eq {s : Str} (h : Rust.trim s = s) : Rust.trimEnd s = s := by
  have hs := trimStart_eq_of_trim_eq h
  have := h
  unfold Rust.trim at this
  rw [hs] at this
  exact this

lemma dropWhile_reverse_eq_of_trimEnd_eq {s : Str} (h : Rust.trimEnd s = s) :
    List.dropWhile Rust.isWhitespaceChar s.reverse = s.reverse := by
  have := congrArg List.reverse h
  unfold Rust.trimEnd at this
  rw [List.reverse_reverse] at this
  rw [this]

lemma trimEnd_append_of {y z : Str} (hz : Rust.trimEnd z = z) (hne : z ≠ []) :
    Rust.trimEnd (y ++ z) = y ++ z := by
  unfold Rust.trimEnd
  rw [List.reverse_append]
  rw [dropWhile_eq_self_append y.reverse (dropWhile_reverse_eq_of_trimEnd_eq hz)
    (by simpa using hne)]
  rw [← List.reverse_append, List.reverse_reverse]

lemma trimStart_append_of {y z : Str} (hy : Rust.trimStart y = y) (hne : y ≠ []) :
    Rust.trimStart (y ++ z) = y ++ z :=
  dropWhile_eq_self_append z hy hne

lemma trim_append_of {y z : Str} (hy : Rust.trimStart y = y) (hyne : y ≠ [])
    (hz : Rust.trimEnd z = z) (hzne : z ≠ []) :
    Rust.trim (y ++ z) = y ++ z := by
  unfold Rust.trim
  rw [trimStart_append_of hy hyne, trimEnd_append_of hz hzne]

lemma trimEnd_append_ws {x : Str} {c : Char} (hc : Rust.isWhitespaceChar c = true) :
    Rust.trimEnd (x ++ [c]) = Rust.trimEnd x := by
  unfold Rust.trimEnd
  rw [List.reverse_append]
  simp [List.dropWhile_cons_of_pos, hc]

lemma infix_of_prefix_of_suffix {a b c : Str} (h1 : a <+: b) (h2 : b <:+ c) : a <:+: c := by
  obtain ⟨t, rfl⟩ := h1
  obtain ⟨s, rfl⟩ := h2
  exact ⟨s, t, by simp⟩

/-- Trimming only removes characters from the ends, so the trimmed string is
an infix of the original. -/
lemma trim_infix_self (s : Str) : Rust.trim s <:+: s := by
  have h1 : Rust.trimStart s <:+ s := List.dropWhile_suffix _
  have h2 : Rust.trim s <+: Rust.trimStart s := by
    unfold Rust.trim Rust.trimEnd
    rw [← List.reverse_suffix, List.reverse_reverse]
    exact List.dropWhile_suffix _
  exact infix_of_prefix_of_suffix h2 h1

lemma infix_cons_cases {m : Str} {c : Char} {l : Str} (h : m <:+: (c :: l)) :
    m <+: (c :: l) ∨ m <:+: l := by
  obtain ⟨a, b, he⟩ := h
  cases a with
  | nil => exact Or.inl ⟨b, by simpa using he⟩
  | cons x a' =>
    right
    have : a' ++ m ++ b = l := by
      have := he
      simp only [List.cons_append] at this
      exact (List.cons.injEq _ _ _ _).mp this |>.2
    exact ⟨a', b, this⟩

lemma infix_dropWhile_of {p : Char → Bool} {c : Char} {m' : Str}
    (hc : p c = false) : ∀ {l : Str}, (c :: m') <:+: l → (c :: m') <:+: l.dropWhile p := by
  intro l
  induction l with
  | nil => intro h; rw [List.infix_nil] at h; cases h
  | cons x t ih =>
    intro h
    by_cases hx : p x = true
    · rw [List.dropWhile_cons_of_pos hx]
      rcases infix_cons_cases h with hp | hi
      · rcases List.cons_prefix_cons.mp hp with ⟨rfl, _⟩
        rw [hx] at hc
        cases hc
      · exact ih hi
    · rw [List.dropWhile_cons_of_neg hx]
      exact h

/-- A non-empty pattern whose first and last characters are not whitespace
survives trimming: if it occurs in `s` it occurs in `Rust.trim s`. -/
lemma infix_trim_of_infix {m s : Str} {c d : Char} {mid : Str}
    (hshape : m = c :: mid ++ [d])
    (hc : Rust.isWhitespaceChar c = false) (hd : Rust.isWhitespaceChar d = false)
    (h : m <:+: s) : m <:+: Rust.trim s := by
  subst hshape
  have h1 : (c :: mid ++ [d]) <:+: Rust.trimStart s := by
    exact infix_dropWhile_of hc h
  have hrev : (c :: mid ++ [d]).reverse <:+: (Rust.trimStart s).reverse :=
    List.reverse_infix.mpr h1
  have hrevshape : (c :: mid ++ [d]).reverse = d :: (mid.reverse ++ [c]) := by simp
  rw [hrevshape] at hrev
  have h2 := infix_dropWhile_of (l := (Rust.trimStart s).reverse) hd hrev
  have h3 := List.reverse_infix.mpr h2
  unfold Rust.trim Rust.trimEnd
  simpa using h3

lemma infix_cons_of_not_mem {m : Str} {c : Char} {l : Str}
    (hc : c ∉ m) (h : m <:+: (c :: l)) : m <:+: l := by
  rcases infix_cons_cases h with hp | hi
  · cases m with
    | nil => exact List.nil_infix
    | cons m0 mt =>
      rcases List.cons_prefix_cons.mp hp with ⟨rfl, _⟩
      exact absurd (List.mem_cons_self m0 mt) hc
  · exact hi

lemma infix_cons_of_head_ne {m0 : Char} {mt : Str} {c : Char} {l : Str}
    (hne : m0 ≠ c) (h : (m0 :: mt) <:+: (c :: l)) : (m0 :: mt) <:+: l := by
  rcases infix_cons_cases h with hp | hi
  · rcases List.cons_prefix_cons.mp hp with ⟨rfl, _⟩
    exact absurd rfl hne
  · exact hi

lemma prefix_append_cons_split {m u : Str} {c : Char} {w : Str}
    (hc : c ∉ m) (h : m <+: (u ++ c :: w)) : m <+: u := by
  by_cases hlen : m.length ≤ u.length
  · have htake := List.prefix_iff_eq_take.mp h
    rw [List.take_append_eq_append_take] at htake
    have h0 : m.length - u.length = 0 := by omega
    rw [h0] at htake
    simp at htake
    rw [htake]
    exact (u.take_prefix m.length)
  · exfalso
    apply hc
    have htake := List.prefix_iff_eq_take.mp h
    rw [List.take_append_eq_append_take] at htake
    have hpos : 0 < m.length - u.length := by omega
    have : (c :: w).take (m.length - u.length) = c :: w.take (m.length - u.length - 1) := by
      cases hk : m.length - u.length with
      | zero => omega
      | succ k => simp [List.take_succ_cons]
    rw [this] at htake
    rw [htake]
    simp

lemma infix_append_cons_split {m a : Str} {c : Char} {b : Str}
    (hc : c ∉ m) (h : m <:+: (a ++ c :: b)) : m <:+: a ∨ m <:+: (c :: b) := by
  induction a with
  | nil => exact Or.inr (by simpa using h)
  | cons x a' ih =>
    rw [List.cons_append] at h
    rcases infix_cons_cases h with hp | hi
    · have := prefix_append_cons_split (u := x :: a') hc (by simpa using hp)
      exact Or.inl this.isInfix
    · rcases ih hi with h1 | h2
      · exact Or.inl (by obtain ⟨p, q, hpq⟩ := h1; exact ⟨x :: p, q, by simp [hpq]⟩)
      · exact Or.inr h2

/-! Concrete records used by the counterexample-style theorems. -/

def exampleNetwork : NewsNetwork := { id := 1, name := str "CNN", description := str "d" }

def exampleBroadcast : NewsBroadcast :=
  { id := 3, date := some ⟨2001, 9, 11⟩, description := str "x",
    news_network := some exampleNetwork, news_affiliate := none }

def exampleAffiliate : NewsAffiliate :=
  { id := 2, name := str "WABC-TV", description := str "d", region := str "NYC",
    network := exampleNetwork }

def exampleMaster : MasterVideo :=
  { categories := [.news], date := some ⟨2001, 9, 11⟩, description := str "D", id := 7,
    links := [str "https://x"], news_broadcasts := [exampleBroadcast], nist_files := [],
    nist_notes := none, people := [], timestamps := [], title := str "T" }

/-- Embedding of `impl From<&NewsAffiliate> for Form` (news.rs:88-100): the
fields are added in the order Name, Description, Region, Network. -/
def Form.fromNewsAffiliate (model : NewsAffiliate) : Form :=
  ⟨[.text (TextField.new (str "Name") model.name),
    .multilineText (MultilineTextField.new (str "Description") model.description),
    .text (TextField.new (str "Region") model.region),
    .text (TextField.new (str "Network") model.network.name)]⟩

set_option maxRecDepth 400000 in
/-- Claim C1.  The round-trip law fails on the code: rendering
`exampleMaster` (whose `links` is `["https://x"]` and whose only category is
`news`) and parsing the unedited text back yields a master video whose
`links` is `["news"]`, because `From<&MasterVideo> for Form` populates the
`Links` field from `model.categories`; and rendering a news affiliate
produces fields in the order Name/Description/Region/Network, which the
affiliate parser (expecting Network first) rejects outright. -/
theorem master_video_round_trip_breaks :
    ((liftForm (Form.from_master_video_str
        (Form.fromMasterVideo exampleMaster).as_string)).bind
      (fun f => master_video_from_form exampleMaster.id f [exampleBroadcast] [])).map
        MasterVideo.links = .ok [str "news"] ∧
    exampleMaster.links = [str "https://x"] ∧
    Form.from_news_affiliate_str (Form.fromNewsAffiliate exampleAffiliate).as_string =
      .error (.malformedField (str "Network")) := by
  refine ⟨by decide, by decide, by decide⟩

/-- Claim C2.  `BooleanField::from_input_str` rejects exactly the values
`yes`/`no` (in any case) with `MalformedField` — the guard is inverted — and
accepts any other non-empty value as `false`; the empty value does yield
`RequiredFieldEmpty`. -/
theorem boolean_field_rejects_yes_no :
    BooleanField.from_input_str (str "Primary") (str "Primary: Yes") =
      .error (.malformedField (str "Primary")) ∧
    BooleanField.from_input_str (str "Primary") (str "Primary: no") =
      .error (.malformedField (str "Primary")) ∧
    BooleanField.from_input_str (str "Primary") (str "Primary: ") =
      .error (.requiredFieldEmpty (str "Primary")) ∧
    BooleanField.from_input_str (str "Primary") (str "Primary: maybe") =
      .ok (BooleanField.new (str "Primary") false) := by
  refine ⟨by decide, by decide, by decide, by decide⟩

/-- Claim C4 (amended).  Every section-splitting parser rejects an input
whose `"---\n"`-delimited section count differs from its fixed field count
with `MalformedForm` (master video 17, video 7, news network 2, news
affiliate 4, news broadcast 4, NIST video 2); the NIST tape parser performs
no section split and can never return `MalformedForm`. -/
theorem form_parsers_section_count_invariant :
    (∀ s, (Rust.splitOnStr s (str "---\n")).length ≠ 17 →
      Form.from_master_video_str s = .error .malformedForm) ∧
    (∀ s, (Rust.splitOnStr s (str "---\n")).length ≠ 7 →
      Form.from_video_str s = .error .malformedForm) ∧
    (∀ s, (Rust.splitOnStr s (str "---\n")).length ≠ 2 →
      Form.from_news_network_str s = .error .malformedForm) ∧
    (∀ s, (Rust.splitOnStr s (str "---\n")).length ≠ 4 →
      Form.from_news_affiliate_str s = .error .malformedForm) ∧
    (∀ s, (Rust.splitOnStr s (str "---\n")).length ≠ 4 →
      Form.from_news_broadcast_str s = .error .malformedForm) ∧
    (∀ s, (Rust.splitOnStr s (str "---\n")).length ≠ 2 →
      Form.from_nist_video_str s = .error .malformedForm) ∧
    (∀ s, Form.from_nist_tape_str s ≠ .error .malformedForm) := by
  refine ⟨?_, ?_, ?_, ?_, ?_, ?_, ?_⟩
  · intro s h; simp [Form.from_master_video_str, h]
  · intro s h; simp [Form.from_video_str, h]
  · intro s h; simp [Form.from_news_network_str, h]
  · intro s h; simp [Form.from_news_affiliate_str, h]
  · intro s h; simp [Form.from_news_broadcast_str, h]
  · intro s h; simp [Form.from_nist_video_str, h]
  · intro s h
    unfold Form.from_nist_tape_str OptionalMultilineListField.from_input_str at h
    by_cases hc : Rust.containsSub s (str "NIST Files") = true
    · simp [hc] at h
    · simp [Bool.not_eq_true] at hc
      simp [hc] at h

/-- Claim C4, counterexample to the claim as stated: an input with two
sections is not rejected by the NIST tape parser (whose fixed field count is
one). -/
theorem nist_tape_two_sections_not_rejected :
    (Rust.splitOnStr (str "NIST Files:\na\n---\nb") (str "---\n")).length = 2 ∧
    Form.from_nist_tape_str (str "NIST Files:\na\n---\nb") ≠ .error .malformedForm := by
  refine ⟨by decide, by decide⟩

/-- Witness for claim C4's theorem at a concrete input. -/
theorem form_parsers_section_count_invariant_witness :
    Form.from_master_video_str (str "x") = .error .malformedForm ∧
    Form.from_news_network_str (str "x") = .error .malformedForm :=
  ⟨form_parsers_section_count_invariant.1 (str "x") (by decide),
   form_parsers_section_count_invariant.2.2.1 (str "x") (by decide)⟩

/-- A hand-filled master-video form text whose `Timestamps` section holds a
line that no event-timestamp regex accepts. -/
def badTimestampFormText : Str :=
  str "News Broadcasts: CNN (2001-09-11)\n---\nTitle: T\n---\nCategories: news\n---\nDate: 2001-09-11\n---\nDescription:\nD\n---\nLinks:\n---\nTimestamps:\nnot a timestamp\n---\nNIST Notes:\n\n---\nEyewitnesses:\n---\nFire:\n---\nPolice:\n---\nPort Authority:\n---\nReporters:\n---\nSurvivors:\n---\nVictims:\n---\nVideographers:\n---\nNIST Files:"

set_option maxRecDepth 400000 in
/-- Claim C8.  A master-video form whose `Timestamps` section parses as a
field but contains an invalid event-timestamp line makes
`master_video_from_form` abort abnormally (the `.unwrap()` on
`EventTimestamp::try_from`, modelled by `ToolError.panicked`) instead of
returning a typed error. -/
theorem master_video_from_form_panics_on_bad_timestamp :
    EventTimestamp.try_from (str "not a timestamp") = .error .formatErr ∧
    (liftForm (Form.from_master_video_str badTimestampFormText)).bind
        (fun f => master_video_from_form 0 f [exampleBroadcast] []) =
      .error (.panicked
        (str "called Result::unwrap on an Err value" ++ str ": " ++ str "not a timestamp")) := by
  refine ⟨by decide, by decide⟩

/-- Claim C6.  For every required field-kind parser a fragment containing
the label whose value is empty after label-stripping and trimming yields
`RequiredFieldEmpty`; each optional counterpart parses the same empty
fragment successfully into an empty value or list. -/
theorem required_empty_optional_empty_invariant :
    (∀ nm inp, Rust.containsSub inp nm = true →
      Rust.trim (Rust.trimStartMatches inp (nm ++ str ": ")) = [] →
      TextField.from_input_str nm inp = .error (.requiredFieldEmpty nm)) ∧
    (∀ nm inp, Rust.containsSub inp nm = true →
      Rust.trim (Rust.trimStartMatchesChar ':'
        (Rust.trimStartMatches inp (nm ++ str ":"))) = [] →
      MultilineTextField.from_input_str nm inp = .error (.requiredFieldEmpty nm)) ∧
    (∀ nm inp, Rust.containsSub inp nm = true →
      Rust.trim (Rust.trimStartMatches inp (nm ++ str ": ")) = [] →
      ListField.from_input_str nm inp = .error (.requiredFieldEmpty nm)) ∧
    (∀ nm inp, Rust.containsSub inp nm = true →
      Rust.trim (Rust.trimStartMatches inp (nm ++ str ":")) = [] →
      MultilineListField.from_input_str nm inp = .error (.requiredFieldEmpty nm)) ∧
    (∀ nm inp, Rust.containsSub inp nm = true →
      Rust.trim (Rust.trimStartMatches inp (nm ++ str ": ")) = [] →
      ChoiceField.from_input_str nm inp = .error (.requiredFieldEmpty nm)) ∧
    (∀ nm inp, Rust.containsSub inp nm = true →
      Rust.trim (Rust.trimStartMatches inp (nm ++ str ": ")) = [] →
      BooleanField.from_input_str nm inp = .error (.requiredFieldEmpty nm)) ∧
    (∀ nm inp, Rust.containsSub inp nm = true →
      Rust.trim (Rust.trimStartMatches inp (nm ++ str ":")) = [] →
      OptionalMultilineTextField.from_input_str nm inp =
        .ok (OptionalMultilineTextField.new nm [])) ∧
    (∀ nm inp, Rust.containsSub inp nm = true →
      Rust.trim (Rust.trimStartMatches inp (nm ++ str ":")) = [] →
      OptionalListField.from_input_str nm inp = .ok (OptionalListField.new nm [])) ∧
    (∀ nm inp, Rust.containsSub inp nm = true →
      Rust.trim (Rust.trimStartMatches inp (nm ++ str ":")) = [] →
      OptionalMultilineListField.from_input_str nm inp =
        .ok (OptionalMultilineListField.new nm [])) ∧
    (∀ nm inp, Rust.containsSub inp nm = true →
      Rust.trim (Rust.trimStartMatches inp (nm ++ str ":")) = [] →
      OptionalChoiceField.from_input_str nm inp = .ok (OptionalChoiceField.new nm [])) ∧
    (∀ nm inp, Rust.containsSub inp nm = true →
      Rust.trim (Rust.trimStartMatches inp (nm ++ str ": ")) = [] →
      OptionalChoiceListField.from_input_str nm inp =
        .ok (OptionalChoiceListField.new nm [])) := by
  refine ⟨?_, ?_, ?_, ?_, ?_, ?_, ?_, ?_, ?_, ?_, ?_⟩ <;>
    · intro nm inp h1 h2
      simp [TextField.from_input_str, MultilineTextField.from_input_str,
        ListField.from_input_str, MultilineListField.from_input_str,
        ChoiceField.from_input_str, BooleanField.from_input_str,
        OptionalMultilineTextField.from_input_str, OptionalListField.from_input_str,
        OptionalMultilineListField.from_input_str, OptionalChoiceField.from_input_str,
        OptionalChoiceListField.from_input_str, h1, h2]

/-- Witness for claim C6's theorem at concrete fragments. -/
theorem required_empty_optional_empty_invariant_witness :
    TextField.from_input_str (str "Title") (str "Title: ") =
      .error (.requiredFieldEmpty (str "Title")) ∧
    OptionalListField.from_input_str (str "Links") (str "Links:\n") =
      .ok (OptionalListField.new (str "Links") []) :=
  ⟨required_empty_optional_empty_invariant.1 (str "Title") (str "Title: ")
      (by decide) (by decide),
   required_empty_optional_empty_invariant.2.2.2.2.2.2.2.1 (str "Links") (str "Links:\n")
      (by decide) (by decide)⟩

lemma joinRendered_eq_intercalate :
    ∀ l : List AnyField,
      Form.joinRendered l = List.intercalate (str "\n---\n") (l.map AnyField.asString)
  | [] => by simp [Form.joinRendered, List.intercalate]
  | [f] => by simp [Form.joinRendered, List.intercalate, List.intersperse]
  | f :: g :: rest => by
    rw [Form.joinRendered, joinRendered_eq_intercalate (g :: rest)]
    simp [List.intercalate, List.intersperse]

/-- Claim C9 (amended).  `Form::as_string` renders each field in order and
joins the renderings with the delimiter `"\n---\n"` (newline, dashes,
newline) — not the bare `"---\n"` — with no trailing delimiter, then trims
the result. -/
theorem form_as_string_is_trimmed_join :
    ∀ form : Form,
      form.as_string =
        Rust.trim (List.intercalate (str "\n---\n") (form.fields.map AnyField.asString)) := by
  intro form
  unfold Form.as_string
  rw [joinRendered_eq_intercalate]

/-- Claim C9, counterexample to the claim as stated: for a two-field form,
`as_string` differs from the trimmed `"---\n"`-join of the field
renderings. -/
theorem form_as_string_not_bare_delimiter_join :
    Form.as_string ⟨[.text ⟨str "A", str "x"⟩, .text ⟨str "B", str "y"⟩]⟩ ≠
      Rust.trim (List.intercalate (str "---\n")
        (([.text ⟨str "A", str "x"⟩, .text ⟨str "B", str "y"⟩] : List AnyField).map
          AnyField.asString)) := by
  decide

/-- The four-field form shape that `Form::from_news_broadcast_str` produces:
optional Network and Affiliate choices, a Date text field and a Description
multiline field. -/
def broadcastFormOf (nv av d desc : Str) : Form :=
  ⟨[.optionalChoice ⟨str "Network", nv, []⟩, .optionalChoice ⟨str "Affiliate", av, []⟩,
    .text ⟨str "Date", d⟩, .multilineText ⟨str "Description", desc⟩]⟩

lemma broadcastFormOf_get_network (nv av d desc : Str) :
    (broadcastFormOf nv av d desc).get_field (str "Network") =
      .ok (.optionalChoice ⟨str "Network", nv, []⟩) := rfl

lemma broadcastFormOf_get_affiliate (nv av d desc : Str) :
    (broadcastFormOf nv av d desc).get_field (str "Affiliate") =
      .ok (.optionalChoice ⟨str "Affiliate", av, []⟩) := rfl

lemma broadcastFormOf_get_date (nv av d desc : Str) :
    (broadcastFormOf nv av d desc).get_field (str "Date") =
      .ok (.text ⟨str "Date", d⟩) := rfl

lemma broadcastFormOf_get_description (nv av d desc : Str) :
    (broadcastFormOf nv av d desc).get_field (str "Description") =
      .ok (.multilineText ⟨str "Description", desc⟩) := rfl

/-- Claim C3.  Reconstructing a news broadcast from a form and saving it:
with both Network and Affiliate non-empty (and resolvable) the pipeline
fails with `NewsBroadcastCannotHaveNetworkAndAffiliate`; with both empty it
fails with `NewsBroadcastDoesNotHaveNetworkOrAffiliate`; with exactly one
non-empty (and resolvable) it succeeds with the matching entity attached. -/
theorem news_broadcast_mutual_exclusivity :
    ∀ (nv av d desc : Str) (networks : List NewsNetwork)
      (affiliates : List NewsAffiliate) (id allocId : Int) (dt : NaiveDate),
      parseNaiveDate d = some dt →
      ((∀ nw aff, nv ≠ [] → av ≠ [] →
          networks.find? (fun m => m.name == nv) = some nw →
          affiliates.find? (fun m => m.name == av) = some aff →
          newsBroadcastPipeline id allocId (broadcastFormOf nv av d desc)
              networks affiliates =
            .error (.db .newsBroadcastCannotHaveNetworkAndAffiliate)) ∧
       (nv = [] → av = [] →
          newsBroadcastPipeline id allocId (broadcastFormOf nv av d desc)
              networks affiliates =
            .error (.db .newsBroadcastDoesNotHaveNetworkOrAffiliate)) ∧
       (∀ nw, nv ≠ [] → av = [] →
          networks.find? (fun m => m.name == nv) = some nw →
          newsBroadcastPipeline id allocId (broadcastFormOf nv av d desc)
              networks affiliates =
            .ok { id := if id = 0 then allocId else id, date := some dt,
                  description := desc, news_network := some nw,
                  news_affiliate := none }) ∧
       (∀ aff, nv = [] → av ≠ [] →
          affiliates.find? (fun m => m.name == av) = some aff →
          newsBroadcastPipeline id allocId (broadcastFormOf nv av d desc)
              networks affiliates =
            .ok { id := if id = 0 then allocId else id, date := some dt,
                  description := desc, news_network := none,
                  news_affiliate := some aff })) := by
  intro nv av d desc networks affiliates id allocId dt hdate
  refine ⟨?_, ?_, ?_, ?_⟩
  · intro nw aff hnv hav hfn hfa
    unfold newsBroadcastPipeline news_broadcast_from_form
    simp only [broadcastFormOf_get_network, broadcastFormOf_get_affiliate,
      broadcastFormOf_get_date, broadcastFormOf_get_description, liftForm,
      AnyField.fieldValue, Except.bind, bind]
    simp [pure, Except.pure, hnv, hav, hfn, hfa, hdate, save_news_broadcast]
  · intro hnv hav
    subst hnv; subst hav
    unfold newsBroadcastPipeline news_broadcast_from_form
    simp only [broadcastFormOf_get_network, broadcastFormOf_get_affiliate,
      broadcastFormOf_get_date, broadcastFormOf_get_description, liftForm,
      AnyField.fieldValue, Except.bind, bind]
    simp [pure, Except.pure, hdate, save_news_broadcast]
  · intro nw hnv hav hfn
    subst hav
    unfold newsBroadcastPipeline news_broadcast_from_form
    simp only [broadcastFormOf_get_network, broadcastFormOf_get_affiliate,
      broadcastFormOf_get_date, broadcastFormOf_get_description, liftForm,
      AnyField.fieldValue, Except.bind, bind]
    simp [pure, Except.pure, hnv, hfn, hdate, save_news_broadcast]
  · intro aff hnv hav hfa
    subst hnv
    unfold newsBroadcastPipeline news_broadcast_from_form
    simp only [broadcastFormOf_get_network, broadcastFormOf_get_affiliate,
      broadcastFormOf_get_date, broadcastFormOf_get_description, liftForm,
      AnyField.fieldValue, Except.bind, bind]
    simp [pure, Except.pure, hav, hfa, hdate, save_news_broadcast]

/-- Witness for claim C3's theorem: a concrete network-only broadcast form
saved as a new record. -/
theorem news_broadcast_mutual_exclusivity_witness :
    newsBroadcastPipeline 0 5 (broadcastFormOf (str "CNN") [] (str "2001-09-11") (str "x"))
        [exampleNetwork] [] =
      .ok { id := 5, date := some ⟨2001, 9, 11⟩, description := str "x",
            news_network := some exampleNetwork, news_affiliate := none } := by
  have h := (news_broadcast_mutual_exclusivity (str "CNN") [] (str "2001-09-11") (str "x")
    [exampleNetwork] [] 0 5 ⟨2001, 9, 11⟩ (by decide)).2.2.1 exampleNetwork
    (by decide) rfl (by decide)
  simpa using h

lemma marker_shape :
    chooseOneOrDeleteAllMarker = '#' :: str "# CHOOSE ONE OR DELETE ALL #" ++ ['#'] := by
  decide

lemma marker_infix_trim {s : Str} (h : chooseOneOrDeleteAllMarker <:+: s) :
    chooseOneOrDeleteAllMarker <:+: Rust.trim s :=
  infix_trim_of_infix marker_shape (by decide) (by decide) h

/-- If the marker occurs nowhere in `name` nor in `val`, it does not occur
in the plain `Name: value` rendering. -/
lemma marker_not_infix_plain_render {name val : Str}
    (hn : ¬ chooseOneOrDeleteAllMarker <:+: name)
    (hv : ¬ chooseOneOrDeleteAllMarker <:+: val) :
    ¬ chooseOneOrDeleteAllMarker <:+: Rust.trim (name ++ str ":" ++ (str " " ++ val)) := by
  intro h
  have h0 : chooseOneOrDeleteAllMarker <:+: (name ++ str ":" ++ (str " " ++ val)) :=
    h.trans (trim_infix_self _)
  have he : name ++ str ":" ++ (str " " ++ val) = name ++ ':' :: ' ' :: val := by
    have e1 : str ":" = [':'] := rfl
    have e2 : str " " = [' '] := rfl
    rw [e1, e2]
    simp
  rw [he] at h0
  rcases infix_append_cons_split (by decide) h0 with h1 | h2
  · exact hn h1
  · have h3 := infix_cons_of_not_mem (by decide) h2
    have hshape : chooseOneOrDeleteAllMarker = '#' :: str "# CHOOSE ONE OR DELETE ALL ##" := by
      decide
    rw [hshape] at h3 hv
    exact hv (infix_cons_of_head_ne (by decide) h3)

/-- Claim C10.  `OptionalChoiceListField::as_string` decides whether to
render the `## CHOOSE ONE OR DELETE ALL ##` marker solely from whether the
field's current (`";"`-joined) value is empty: the marker occurs in the
rendering exactly when the value is empty (for any injected choices,
including none), and with no values and no choices the rendering is the
label line followed by the marker alone.  The rendering is a function of the
field alone — no record identity is consulted. -/
theorem choice_list_marker_iff_value_empty :
    (∀ name values choices,
      ¬ chooseOneOrDeleteAllMarker <:+: name →
      ¬ chooseOneOrDeleteAllMarker <:+:
          OptionalChoiceListField.value ⟨name, values, choices⟩ →
      (chooseOneOrDeleteAllMarker <:+:
          OptionalChoiceListField.as_string ⟨name, values, choices⟩ ↔
        OptionalChoiceListField.value ⟨name, values, choices⟩ = [])) ∧
    OptionalChoiceListField.as_string ⟨str "News Broadcasts", [], []⟩ =
      str "News Broadcasts:" ++ str "\n" ++ chooseOneOrDeleteAllMarker := by
  constructor
  · intro name values choices hn hv
    by_cases hval : OptionalChoiceListField.value ⟨name, values, choices⟩ = []
    · refine iff_of_true ?_ hval
      have hemp : (OptionalChoiceListField.value ⟨name, values, choices⟩).isEmpty = true := by
        rw [hval]; rfl
      simp only [OptionalChoiceListField.as_string, hemp, if_true]
      apply marker_infix_trim
      exact ⟨name ++ str ":" ++ str "\n",
        str "\n" ++ (choices.map (fun c => c ++ str "\n")).flatten, by simp⟩
    · refine iff_of_false ?_ hval
      have hemp : (OptionalChoiceListField.value ⟨name, values, choices⟩).isEmpty = false := by
        cases hq : OptionalChoiceListField.value ⟨name, values, choices⟩ with
        | nil => exact absurd hq hval
        | cons a l => rfl
      simp only [OptionalChoiceListField.as_string, hemp, Bool.false_eq_true, if_false]
      exact marker_not_infix_plain_render hn hv
  · decide

/-- Witness for claim C10's theorem: a concrete empty-valued field with one
injected candidate renders the marker. -/
theorem choice_list_marker_iff_value_empty_witness :
    chooseOneOrDeleteAllMarker <:+:
      OptionalChoiceListField.as_string ⟨str "N", [], [str "CNN"]⟩ :=
  (choice_list_marker_iff_value_empty.1 (str "N") [] [str "CNN"]
    (by decide) (by decide)).mpr (by decide)

lemma flatten_map_newline : ∀ cs : List Str, cs ≠ [] →
    (cs.map (fun c => c ++ str "\n")).flatten = List.intercalate (str "\n") cs ++ str "\n"
  | [], h => absurd rfl h
  | [c], _ => by simp [List.intercalate, List.intersperse]
  | c :: d :: t, _ => by
    have ih := flatten_map_newline (d :: t) (by simp)
    have hic : List.intercalate (str "\n") (c :: d :: t) =
        c ++ str "\n" ++ List.intercalate (str "\n") (d :: t) := by
      simp [List.intercalate, List.intersperse]
    simp only [List.map_cons, List.flatten_cons] at ih ⊢
    rw [ih, hic]
    simp

lemma intercalate_newline_trimEnd : ∀ cs : List Str, cs ≠ [] →
    (∀ c ∈ cs, Rust.trimEnd c = c ∧ c ≠ []) →
    Rust.trimEnd (List.intercalate (str "\n") cs) = List.intercalate (str "\n") cs ∧
      List.intercalate (str "\n") cs ≠ []
  | [], h, _ => absurd rfl h
  | [c], _, hall => by
    have hc := hall c (by simp)
    have he : List.intercalate (str "\n") [c] = c := by
      simp [List.intercalate, List.intersperse]
    rw [he]
    exact hc
  | c :: d :: t, _, hall => by
    have ih := intercalate_newline_trimEnd (d :: t) (by simp)
      (fun x hx => hall x (by simp at hx ⊢; tauto))
    have hic : List.intercalate (str "\n") (c :: d :: t) =
        c ++ (str "\n" ++ List.intercalate (str "\n") (d :: t)) := by
      simp [List.intercalate, List.intersperse]
    rw [hic]
    have hz : Rust.trimEnd (str "\n" ++ List.intercalate (str "\n") (d :: t)) =
        str "\n" ++ List.intercalate (str "\n") (d :: t) :=
      trimEnd_append_of ih.1 ih.2
    have hne : str "\n" ++ List.intercalate (str "\n") (d :: t) ≠ [] := by
      simp [show str "\n" = ['\n'] from rfl]
    refine ⟨trimEnd_append_of hz hne, ?_⟩
    intro hcon
    rcases List.append_eq_nil.mp hcon with ⟨-, h2⟩
    exact hne h2

/-- Claim C7.  With an empty (`";"`-joined) current value and at least one
candidate injected through `add_choices`, `OptionalChoiceListField` renders
the label followed by the `## CHOOSE ONE OR DELETE ALL ##` marker and then
exactly the injected candidates, one per line; with a non-empty value it
renders the label with the joined values and never renders the placeholder
marker.  (The label and candidates are assumed trimmed and non-empty, as
every caller's reference data is.) -/
theorem choice_list_placeholder_exact :
    (∀ name values (cs : List Str),
      OptionalChoiceListField.value ⟨name, values, []⟩ = [] →
      cs ≠ [] →
      Rust.trim name = name → name ≠ [] →
      (∀ c ∈ cs, Rust.trim c = c ∧ c ≠ []) →
      ((OptionalChoiceListField.new name values).add_choices cs).as_string =
        name ++ str ":" ++ str "\n" ++ chooseOneOrDeleteAllMarker ++ str "\n" ++
          List.intercalate (str "\n") cs) ∧
    (∀ name values choices,
      OptionalChoiceListField.value ⟨name, values, choices⟩ ≠ [] →
      Rust.trim name = name → name ≠ [] →
      Rust.trim (OptionalChoiceListField.value ⟨name, values, choices⟩) =
        OptionalChoiceListField.value ⟨name, values, choices⟩ →
      (OptionalChoiceListField.as_string ⟨name, values, choices⟩ =
          name ++ str ": " ++ OptionalChoiceListField.value ⟨name, values, choices⟩) ∧
      (¬ chooseOneOrDeleteAllMarker <:+: name →
        ¬ chooseOneOrDeleteAllMarker <:+:
            OptionalChoiceListField.value ⟨name, values, choices⟩ →
        ¬ chooseOneOrDeleteAllMarker <:+:
            OptionalChoiceListField.as_string ⟨name, values, choices⟩)) := by
  constructor
  · intro name values cs hval hcs hntrim hnne hall
    have hfield : (OptionalChoiceListField.new name values).add_choices cs =
        ⟨name, values, cs⟩ := by
      simp [OptionalChoiceListField.new, OptionalChoiceListField.add_choices]
    rw [hfield]
    have hemp : (OptionalChoiceListField.value ⟨name, values, cs⟩).isEmpty = true := by
      have : OptionalChoiceListField.value ⟨name, values, cs⟩ =
          OptionalChoiceListField.value ⟨name, values, []⟩ := rfl
      rw [this, hval]; rfl
    simp only [OptionalChoiceListField.as_string, hemp, if_true]
    rw [flatten_map_newline cs hcs]
    have hassoc : name ++ str ":" ++
        (str "\n" ++ chooseOneOrDeleteAllMarker ++ str "\n" ++
          (List.intercalate (str "\n") cs ++ str "\n")) =
        name ++ (str ":" ++ str "\n" ++ chooseOneOrDeleteAllMarker ++ str "\n" ++
          List.intercalate (str "\n") cs ++ str "\n") := by simp
    rw [hassoc]
    have hallEnd : ∀ c ∈ cs, Rust.trimEnd c = c ∧ c ≠ [] :=
      fun c hc => ⟨trimEnd_eq_of_trim_eq (hall c hc).1, (hall c hc).2⟩
    have hI := intercalate_newline_trimEnd cs hcs hallEnd
    unfold Rust.trim
    have hts : Rust.trimStart (name ++ (str ":" ++ str "\n" ++ chooseOneOrDeleteAllMarker ++
        str "\n" ++ List.intercalate (str "\n") cs ++ str "\n")) =
        name ++ (str ":" ++ str "\n" ++ chooseOneOrDeleteAllMarker ++ str "\n" ++
          List.intercalate (str "\n") cs ++ str "\n") :=
      trimStart_append_of (trimStart_eq_of_trim_eq hntrim) hnne
    rw [hts]
    have hsplit : name ++ (str ":" ++ str "\n" ++ chooseOneOrDeleteAllMarker ++ str "\n" ++
        List.intercalate (str "\n") cs ++ str "\n") =
        ((name ++ str ":" ++ str "\n" ++ chooseOneOrDeleteAllMarker ++ str "\n") ++
          List.intercalate (str "\n") cs) ++ ['\n'] := by
      simp [show str "\n" = ['\n'] from rfl]
    rw [hsplit, trimEnd_append_ws (by decide),
      trimEnd_append_of hI.1 hI.2]
  · intro name values choices hval hntrim hnne hvtrim
    have hemp : (OptionalChoiceListField.value ⟨name, values, choices⟩).isEmpty = false := by
      cases hq : OptionalChoiceListField.value ⟨name, values, choices⟩ with
      | nil => exact absurd hq hval
      | cons a l => rfl
    constructor
    · simp only [OptionalChoiceListField.as_string, hemp, Bool.false_eq_true, if_false]
      have hassoc : name ++ str ":" ++
          (str " " ++ OptionalChoiceListField.value ⟨name, values, choices⟩) =
          name ++ (str ": " ++ OptionalChoiceListField.value ⟨name, values, choices⟩) := by
        simp [show str ":" = [':'] from rfl, show str " " = [' '] from rfl,
          show str ": " = [':', ' '] from rfl]
      rw [hassoc]
      unfold Rust.trim
      rw [trimStart_append_of (trimStart_eq_of_trim_eq hntrim) hnne]
      have hsplit : name ++ (str ": " ++
          OptionalChoiceListField.value ⟨name, values, choices⟩) =
          (name ++ str ": ") ++ OptionalChoiceListField.value ⟨name, values, choices⟩ := by
        simp
      rw [hsplit, trimEnd_append_of (trimEnd_eq_of_trim_eq hvtrim) hval]
    · intro hn hv
      simp only [OptionalChoiceListField.as_string, hemp, Bool.false_eq_true, if_false]
      exact marker_not_infix_plain_render hn hv

/-- Witness for claim C7's theorem: one candidate, empty value, and the
exact placeholder rendering. -/
theorem choice_list_placeholder_exact_witness :
    ((OptionalChoiceListField.new (str "News Broadcasts") []).add_choices
        [str "CNN"]).as_string =
      str "News Broadcasts" ++ str ":" ++ str "\n" ++ chooseOneOrDeleteAllMarker ++
        str "\n" ++ List.intercalate (str "\n") [str "CNN"] :=
  choice_list_placeholder_exact.1 (str "News Broadcasts") [] [str "CNN"]
    (by decide) (by decide) (by decide) (by decide)
    (by intro c hc; simp at hc; subst hc; exact ⟨by decide, by decide⟩)

/-! Lemmas for the person-merge fold of `master_video_from_form`. -/

lemma addNewPeople_nil (acc : List Person) : addNewPeople acc [] = acc := rfl

lemma addNewPeople_cons (acc : List Person) (p : Person) (rest : List Person) :
    addNewPeople acc (p :: rest) =
      addNewPeople (if acc.any (fun q => q.name == p.name) then acc else acc ++ [p]) rest := rfl

lemma addNewPeople_spec :
    ∀ (input acc : List Person),
      (∀ n, acc.countP (fun q => q.name == n) ≤ 1) →
      ((∀ n, (addNewPeople acc input).countP (fun q => q.name == n) =
          if 0 < acc.countP (fun q => q.name == n) ∨ n ∈ input.map Person.name
          then 1 else 0) ∧
       (∀ q ∈ addNewPeople acc input,
          q ∈ acc ∨ (q ∈ input ∧ acc.countP (fun r => r.name == q.name) = 0))) := by
  intro input
  induction input with
  | nil =>
    intro acc hb
    constructor
    · intro n
      simp only [addNewPeople_nil, List.map_nil, List.not_mem_nil, or_false]
      by_cases h : 0 < acc.countP (fun q => q.name == n)
      · rw [if_pos h]; have := hb n; omega
      · rw [if_neg h]; omega
    · intro q hq
      rw [addNewPeople_nil] at hq
      exact .inl hq
  | cons p rest ih =>
    intro acc hb
    rw [addNewPeople_cons]
    by_cases hmem : acc.any (fun q => q.name == p.name) = true
    · rw [if_pos hmem]
      have ihh := ih acc hb
      constructor
      · intro n
        rw [ihh.1 n]
        by_cases hpn : p.name = n
        · have h0 : 0 < acc.countP (fun q => q.name == n) := by
            rcases List.any_eq_true.mp hmem with ⟨q, hq, hqe⟩
            refine List.countP_pos_iff.mpr ⟨q, hq, ?_⟩
            rw [beq_iff_eq] at hqe ⊢
            rw [hqe, hpn]
          simp [h0]
        · have hne : ¬ n = p.name := fun h => hpn h.symm
          simp [List.map_cons, List.mem_cons, hne]
      · intro q hq
        rcases ihh.2 q hq with h1 | h2
        · exact .inl h1
        · exact .inr ⟨List.mem_cons_of_mem p h2.1, h2.2⟩
    · rw [if_neg hmem]
      have hcnt0 : acc.countP (fun r => r.name == p.name) = 0 := by
        rw [List.countP_eq_zero]
        intro a ha hcontra
        exact hmem (List.any_eq_true.mpr ⟨a, ha, hcontra⟩)
      have hsing : ∀ n, ([p] : List Person).countP (fun q => q.name == n) =
          if p.name = n then 1 else 0 := by
        intro n
        by_cases hpn : p.name = n
        · simp [List.countP_cons, hpn]
        · simp [List.countP_cons, hpn]
      have hb' : ∀ n, (acc ++ [p]).countP (fun q => q.name == n) ≤ 1 := by
        intro n
        rw [List.countP_append, hsing n]
        by_cases hpn : p.name = n
        · have h0 : acc.countP (fun q => q.name == n) = 0 := by rw [← hpn]; exact hcnt0
          simp [h0, hpn]
        · have := hb n
          simp [hpn]
          omega
      have ihh := ih (acc ++ [p]) hb'
      constructor
      · intro n
        rw [ihh.1 n, List.countP_append, hsing n]
        by_cases hpn : p.name = n
        · simp [hpn]
        · have hne : ¬ n = p.name := fun h => hpn h.symm
          simp [hpn, hne, List.map_cons, List.mem_cons]
      · intro q hq
        rcases ihh.2 q hq with h1 | h2
        · rcases List.mem_append.mp h1 with ha | hp
          · exact .inl ha
          · simp only [List.mem_singleton] at hp
            subst hp
            exact .inr ⟨List.mem_cons_self q rest, hcnt0⟩
        · right
          refine ⟨List.mem_cons_of_mem p h2.1, ?_⟩
          have h3 := h2.2
          rw [List.countP_append] at h3
          omega

lemma applyRoleTag_name (input : List Person) (person : Person) :
    (applyRoleTag input person).name = person.name := by
  unfold applyRoleTag
  cases input.find? (fun p => p.name == person.name) with
  | none => rfl
  | some p =>
    dsimp only
    split <;> rfl

lemma addRoleTags_countP (acc input : List Person) (n : Str) :
    (addRoleTags acc input).countP (fun q => q.name == n) =
      acc.countP (fun q => q.name == n) := by
  unfold addRoleTags
  rw [List.countP_map]
  exact List.countP_congr (fun q _ => by simp [Function.comp, applyRoleTag_name])

lemma gpfi_mem {vs : List Str} {people : List Person} {pt : PersonType} {p : Person}
    (hp : p ∈ get_people_from_input vs people pt) :
    p.types = [pt] ∧ p.name ∈ vs := by
  unfold get_people_from_input at hp
  rcases List.mem_map.mp hp with ⟨nm, hnm, rfl⟩
  cases people.find? (fun q => q.name == nm) with
  | none => exact ⟨rfl, hnm⟩
  | some q => exact ⟨rfl, hnm⟩

lemma gpfi_exists_name {vs : List Str} {people : List Person} {pt : PersonType} {n : Str} :
    (∃ p ∈ get_people_from_input vs people pt, p.name = n) ↔ n ∈ vs := by
  constructor
  · rintro ⟨p, hp, rfl⟩
    exact (gpfi_mem hp).2
  · intro hn
    cases hq : people.find? (fun q => q.name == n) with
    | none =>
      refine ⟨Person.mk 0 n none none [pt], ?_, rfl⟩
      unfold get_people_from_input
      refine List.mem_map.mpr ⟨n, hn, ?_⟩
      simp only [hq]
    | some q =>
      refine ⟨Person.mk q.id n q.historical_title q.description [pt], ?_, rfl⟩
      unfold get_people_from_input
      refine List.mem_map.mpr ⟨n, hn, ?_⟩
      simp only [hq]

/-- How `applyRoleTag` changes the role tags of one person, when the input
comes from `get_people_from_input`: append the current role unless the
person's name is not in this role's list or the role is already present. -/
lemma applyRoleTag_types (people : List Person) (vs : List Str) (pt : PersonType)
    (person : Person) :
    (applyRoleTag (get_people_from_input vs people pt) person).types =
      if person.name ∈ vs ∧ pt ∉ person.types
      then person.types ++ [pt] else person.types := by
  cases hfind : (get_people_from_input vs people pt).find? (fun p => p.name == person.name) with
  | none =>
    have hnot : person.name ∉ vs := by
      intro hmemvs
      rcases gpfi_exists_name.mpr hmemvs with ⟨p, hp, hpn⟩
      have := List.find?_eq_none.mp hfind p hp
      rw [beq_iff_eq] at this
      exact this hpn
    unfold applyRoleTag
    rw [hfind]
    simp [hnot]
  | some p =>
    have hp := List.mem_of_find?_eq_some hfind
    have hpe := List.find?_some hfind
    rw [beq_iff_eq] at hpe
    rcases gpfi_mem hp with ⟨htypes, hnamein⟩
    have hmemvs : person.name ∈ vs := by rw [← hpe]; exact hnamein
    have hhead : p.types.headI = pt := by rw [htypes]; rfl
    unfold applyRoleTag
    rw [hfind]
    by_cases hc : pt ∈ person.types
    · have hcb : person.types.contains pt = true := by simpa using hc
      simp [hhead, hcb, hmemvs, hc]
    · have hcb : person.types.contains pt = false := by simpa using hc
      simp [hhead, hcb, hmemvs, hc]

/-- Invariant carried through the role-pair fold: `φ` says which names have
been seen in a processed role list (each such name has exactly one entry),
`ψ` says which role tags a name has accumulated (each exactly once), and a
tagged name is a seen name. -/
def mergeInv (φ : Str → Bool) (ψ : Str → PersonType → Bool) (acc : List Person) : Prop :=
  (∀ n, acc.countP (fun q => q.name == n) = if φ n then 1 else 0) ∧
  (∀ q ∈ acc, ∀ t, q.types.count t = if ψ q.name t then 1 else 0) ∧
  (∀ n t, ψ n t = true → φ n = true)

lemma count_singleton_ite (a b : PersonType) :
    ([b] : List PersonType).count a = if a = b then 1 else 0 := by
  by_cases h : a = b <;> simp [List.count_cons, h]

lemma mergeInv_step (people : List Person) (vs : List Str) (pt : PersonType)
    (φ : Str → Bool) (ψ : Str → PersonType → Bool) (acc : List Person)
    (h : mergeInv φ ψ acc) :
    mergeInv (fun n => φ n || vs.contains n)
      (fun n t => ψ n t || (pt == t && vs.contains n))
      (processPersonField people acc vs pt) := by
  obtain ⟨hA, hB, hC⟩ := h
  have hbound : ∀ n, acc.countP (fun q => q.name == n) ≤ 1 := by
    intro n; rw [hA n]; split <;> omega
  obtain ⟨hNA, hNB⟩ := addNewPeople_spec (get_people_from_input vs people pt) acc hbound
  have hPPF : processPersonField people acc vs pt =
      addRoleTags (addNewPeople acc (get_people_from_input vs people pt))
        (get_people_from_input vs people pt) := rfl
  have hmemiff : ∀ n, n ∈ (get_people_from_input vs people pt).map Person.name ↔ n ∈ vs := by
    intro n
    constructor
    · intro hmm
      rcases List.mem_map.mp hmm with ⟨p, hp, rfl⟩
      exact (gpfi_mem hp).2
    · intro hv
      rcases gpfi_exists_name.mpr hv with ⟨p, hp, hpn⟩
      exact List.mem_map.mpr ⟨p, hp, hpn⟩
  refine ⟨?_, ?_, ?_⟩
  · intro n
    rw [hPPF, addRoleTags_countP, hNA n]
    by_cases hφ : φ n = true
    · have hpos : 0 < acc.countP (fun q => q.name == n) := by
        rw [hA n, if_pos hφ]; omega
      simp [hpos, hφ]
    · have hφ' : φ n = false := by revert hφ; cases φ n <;> simp
      have hc0 : acc.countP (fun q => q.name == n) = 0 := by
        rw [hA n, if_neg (by simp [hφ'])]
      by_cases hv : n ∈ vs
      · have hvb : vs.contains n = true := by simpa using hv
        simp [hc0, hφ', hvb, hmemiff, hv]
      · have hvb : vs.contains n = false := by simpa using hv
        simp [hc0, hφ', hvb, hmemiff, hv]
  · intro q hq t
    rw [hPPF] at hq
    rcases List.mem_map.mp hq with ⟨person, hperson, rfl⟩
    rw [applyRoleTag_name, applyRoleTag_types]
    rcases hNB person hperson with hacc | ⟨hin, hcnt0⟩
    · have htypesEq := hB person hacc
      by_cases hv : person.name ∈ vs
      · have hvb : vs.contains person.name = true := by simpa using hv
        by_cases hpt : pt ∈ person.types
        · rw [if_neg (by tauto)]
          have hψpt : ψ person.name pt = true := by
            have hcp := htypesEq pt
            by_contra hx
            have hx' : ψ person.name pt = false := by revert hx; cases ψ person.name pt <;> simp
            rw [hx'] at hcp
            simp at hcp
            exact (List.count_eq_zero.mp hcp) hpt
          by_cases hte : t = pt
          · subst hte
            rw [htypesEq]
            simp [hψpt]
          · have hbe : (pt == t) = false := by
              simp [beq_iff_eq]
              exact fun hx => hte hx.symm
            rw [htypesEq t]
            simp [hbe]
        · rw [if_pos ⟨hv, hpt⟩, List.count_append, count_singleton_ite]
          by_cases hte : t = pt
          · subst hte
            have h0 : person.types.count t = 0 := List.count_eq_zero.mpr hpt
            have hψ0 : ψ person.name t = false := by
              have hcp := htypesEq t
              rw [h0] at hcp
              by_contra hx
              have hx' : ψ person.name t = true := by revert hx; cases ψ person.name t <;> simp
              rw [hx'] at hcp
              simp at hcp
            simp [h0, hψ0, hvb, hv]
          · have hbe : (pt == t) = false := by
              simp [beq_iff_eq]
              exact fun hx => hte hx.symm
            rw [htypesEq t]
            simp [hbe, hte]
      · have hvb : vs.contains person.name = false := by simpa using hv
        rw [if_neg (by tauto)]
        rw [htypesEq t]
        simp [hvb, hv]
    · rcases gpfi_mem hin with ⟨htypes, hnamein⟩
      have hφ0 : φ person.name = false := by
        have hcp := hA person.name
        rw [hcnt0] at hcp
        by_contra hx
        have hx' : φ person.name = true := by revert hx; cases φ person.name <;> simp
        rw [hx'] at hcp
        simp at hcp
      have hψ0 : ∀ u, ψ person.name u = false := by
        intro u
        by_contra hx
        have hx' : ψ person.name u = true := by revert hx; cases ψ person.name u <;> simp
        have := hC person.name u hx'
        rw [hφ0] at this
        cases this
      have hptmem : pt ∈ person.types := by rw [htypes]; simp
      have hvb : vs.contains person.name = true := by simpa using hnamein
      rw [if_neg (by tauto), htypes, count_singleton_ite]
      by_cases hte : t = pt
      · subst hte
        simp [hψ0, hvb, hnamein]
      · have hbe : (pt == t) = false := by
          simp [beq_iff_eq]
          exact fun hx => hte hx.symm
        simp [hψ0, hvb, hbe, hte]
  · intro n t hψ'
    simp only [Bool.or_eq_true, Bool.and_eq_true] at hψ' ⊢
    rcases hψ' with h1 | ⟨_, h2⟩
    · exact .inl (hC n t h1)
    · exact .inr h2

lemma mergeInv_fold (people : List Person) :
    ∀ (pairs : List (List Str × PersonType)) (φ : Str → Bool)
      (ψ : Str → PersonType → Bool) (acc : List Person),
      mergeInv φ ψ acc →
      mergeInv (fun n => φ n || pairs.any (fun pr => pr.1.contains n))
        (fun n t => ψ n t || pairs.any (fun pr => pr.2 == t && pr.1.contains n))
        (pairs.foldl (fun a pr => processPersonField people a pr.1 pr.2) acc)
  | [], φ, ψ, acc, h => by
    unfold mergeInv at h ⊢
    simpa using h
  | (vs, pt) :: rest, φ, ψ, acc, h => by
    have hstep := mergeInv_step people vs pt φ ψ acc h
    have ih := mergeInv_fold people rest _ _ _ hstep
    unfold mergeInv at ih ⊢
    simp only [List.any_cons, List.foldl_cons, Bool.or_assoc] at ih ⊢
    exact ih

/-- The two endpoint properties of the person-merge fold: every name that
occurs in some role list has exactly one entry (others none), and an entry's
tag multiset has each role exactly once iff the name occurs in that role's
list. -/
lemma collectPeoplePure_spec (people : List Person)
    (pairs : List (List Str × PersonType)) :
    (∀ n, (collectPeoplePure people pairs).countP (fun q => q.name == n) =
      if pairs.any (fun pr => pr.1.contains n) then 1 else 0) ∧
    (∀ q ∈ collectPeoplePure people pairs, ∀ t,
      q.types.count t =
        if pairs.any (fun pr => pr.2 == t && pr.1.contains q.name) then 1 else 0) := by
  have h0 : mergeInv (fun _ => false) (fun _ _ => false) [] := by
    refine ⟨fun n => rfl, fun q hq => absurd hq (List.not_mem_nil q), fun n t h => by cases h⟩
  have hf := mergeInv_fold people pairs _ _ _ h0
  unfold mergeInv at hf
  simp only [Bool.false_or] at hf
  exact ⟨hf.1, hf.2.1⟩

/-- The form shape produced by `Form::from_master_video_str` for a
completed master form, with the eight role-category lists left
symbolic and the remaining fields filled with fixed valid values. -/
def mkMasterFormP (e f po pa r s v vg : List Str) : Form :=
  ⟨[.optionalChoiceList ⟨str "News Broadcasts", [], []⟩,
    .text ⟨str "Title", str "T"⟩,
    .list ⟨str "Categories", [str "news"]⟩,
    .text ⟨str "Date", str "2001-09-11"⟩,
    .multilineText ⟨str "Description", str "D"⟩,
    .optionalList ⟨str "Links", []⟩,
    .optionalMultilineList ⟨str "Timestamps", []⟩,
    .optionalMultilineText ⟨str "NIST Notes", []⟩,
    .optionalList ⟨str "Eyewitnesses", e⟩,
    .optionalList ⟨str "Fire", f⟩,
    .optionalList ⟨str "Police", po⟩,
    .optionalList ⟨str "Port Authority", pa⟩,
    .optionalList ⟨str "Reporters", r⟩,
    .optionalList ⟨str "Survivors", s⟩,
    .optionalList ⟨str "Victims", v⟩,
    .optionalList ⟨str "Videographers", vg⟩,
    .optionalMultilineList ⟨str "NIST Files", []⟩]⟩

/-- The eight role lists paired with their role tags, in the fixed order of
`master_video_from_form`. -/
def rolePairsOf (e f po pa r s v vg : List Str) : List (List Str × PersonType) :=
  [(e, .eyewitness), (f, .fire), (po, .police), (pa, .portAuthority),
   (r, .reporter), (s, .survivor), (v, .victim), (vg, .videographer)]

set_option maxRecDepth 100000 in
/-- Claim C5.  In `master_video_from_form`, for any contents of the eight
role-category list fields and any people registry, the reconstructed people
collection holds exactly one entry per name that occurs in some role list
(none for other names), and an entry carries each role tag exactly once —
once for every role list its name occurs in, never twice. -/
theorem master_video_person_merge :
    ∀ (e f po pa r s v vg : List Str) (registry : List Person),
      ∃ m, master_video_from_form 1 (mkMasterFormP e f po pa r s v vg) [] registry =
          .ok m ∧
        (∀ n, m.people.countP (fun q => q.name == n) =
          if (rolePairsOf e f po pa r s v vg).any (fun pr => pr.1.contains n)
          then 1 else 0) ∧
        (∀ q ∈ m.people, ∀ t, q.types.count t =
          if (rolePairsOf e f po pa r s v vg).any
              (fun pr => pr.2 == t && pr.1.contains q.name)
          then 1 else 0) := by
  intro e f po pa r s v vg registry
  exact ⟨{ categories := [.news], date := some ⟨2001, 9, 11⟩, description := str "D",
           id := 1, links := [], news_broadcasts := [], nist_files := [],
           nist_notes := none,
           people := collectPeoplePure registry (rolePairsOf e f po pa r s v vg),
           timestamps := [], title := str "T" },
    rfl,
    (collectPeoplePure_spec registry (rolePairsOf e f po pa r s v vg)).1,
    (collectPeoplePure_spec registry (rolePairsOf e f po pa r s v vg)).2⟩

set_option maxRecDepth 100000 in
/-- Witness for claim C5's theorem: the spec's own example, `Alice` listed
under both Fire and Reporters, yields a single entry tagged Fire and
Reporter once each. -/
theorem master_video_person_merge_witness :
    ∃ m, master_video_from_form 1
        (mkMasterFormP [] [str "Alice"] [] [] [str "Alice"] [] [] []) [] [] = .ok m ∧
      m.people.countP (fun q => q.name == str "Alice") = 1 ∧
      ∀ q ∈ m.people, q.types.count .fire = 1 ∧ q.types.count .reporter = 1 ∧
        q.types.count .victim = 0 := by
  obtain ⟨m, h1, h2, h3⟩ :=
    master_video_person_merge [] [str "Alice"] [] [] [str "Alice"] [] [] [] []
  have h1' : master_video_from_form 1
      (mkMasterFormP [] [str "Alice"] [] [] [str "Alice"] [] [] []) [] [] =
      .ok { categories := [.news], date := some ⟨2001, 9, 11⟩, description := str "D",
            id := 1, links := [], news_broadcasts := [], nist_files := [],
            nist_notes := none,
            people := [⟨0, str "Alice", none, none, [.fire, .reporter]⟩],
            timestamps := [], title := str "T" } := by decide
  rw [h1] at h1'
  have hm := (Except.ok.injEq _ _).mp h1'
  subst hm
  exact ⟨_, h1, by decide, by decide⟩
